import Mathlib

/-!
# Aixel demo storefront: the event-tracking client and the identity resolver

A shallow embedding of `demo_site/src/utils/tracking.js` (`generateUUID`,
`getSessionId`, `trackEvent`), of the event object of the legacy
`demo_site_old/tracking.js`, of `login` and the cart updaters from
`demo_site/src/context/AppContext.jsx`, and of the cart totals of
`demo_site/src/pages/Cart.jsx` and `Checkout.jsx`, which are binary64
arithmetic.

JavaScript values are the inductive type `JVal`; `undefined` is `none` of an
`Option JVal`.  Module state (the `eventCache` map), browser storage and the
list of `fetch` calls issued are threaded explicitly as `State`; what a call
reads from the browser (clock, location, user agent, random draws, the
outcome of the request) is an `Env`.  An exception raised by a call is the
`error` of an `Except JsError`.
-/

set_option autoImplicit false

namespace Aixel

/-! ## JavaScript values -/

/-- JSON-representable JavaScript values.  Numbers are restricted to the safe
integers (magnitude below `2^53`), which binary64 holds exactly and which
ToString and `JSON.stringify` write as their decimal expansion. -/
inductive JVal where
  | null
  | bool (b : Bool)
  | num (n : Int) (safe : n.natAbs < 9007199254740992)
  | str (s : String)
  | arr (xs : List JVal)
  | obj (kvs : List (String × JVal))

/-- An object as the list of its own enumerable properties, in enumeration order. -/
abbrev Obj := List (String × JVal)

/-- Exceptions the modelled code can raise. -/
inductive JsError where
  | syntaxError
  | securityError
  | typeError
  | quotaExceededError
  deriving DecidableEq, Repr

/-- The abstract operation ToBoolean. -/
def JVal.truthy : JVal → Bool
  | .null => false
  | .bool b => b
  | .num n _ => n != 0
  | .str s => s != ""
  | .arr _ => true
  | .obj _ => true

/-- The expression `a || d`, where `a` may be `undefined` (`none`). -/
def orDefault (a : Option JVal) (d : JVal) : JVal :=
  match a with
  | some v => if v.truthy then v else d
  | none => d

/-- Lookup of a key in a key/value list (first occurrence). -/
def mapGet {β : Type} : List (String × β) → String → Option β
  | [], _ => none
  | (k, v) :: rest, key => if k = key then some v else mapGet rest key

/-- Insertion into a key/value list: an existing key keeps its position and
takes the new value, a new key goes last (`Map.prototype.set`, property
definition on an object). -/
def mapSet {β : Type} : List (String × β) → String → β → List (String × β)
  | [], key, v => [(key, v)]
  | (k, x) :: rest, key, v =>
    if k = key then (k, v) :: rest else (k, x) :: mapSet rest key v

/-- The optional-chaining read `v?.name` for a property name that no built-in
prototype defines (`userId`, `email`, `name`): `undefined` unless `v` is an
object with that own property. -/
def JVal.prop : JVal → String → Option JVal
  | .obj kvs, name => mapGet kvs name
  | _, _ => none

mutual
/-- The abstract operation ToString, as a template literal applies it.  An
object is converted through its `toString` member: the inherited
`Object.prototype.toString` gives `"[object Object]"`, but an own member named
`toString` shadows it, is not callable (no JSON value is), and the conversion
raises a `TypeError`.  An array is converted through `join`. -/
def JVal.toStr : JVal → Except JsError String
  | .null => .ok "null"
  | .bool b => .ok (if b then "true" else "false")
  | .num n _ => .ok (toString n)
  | .str s => .ok s
  | .arr xs => JVal.joinElems xs
  | .obj kvs =>
    match mapGet kvs "toString" with
    | some _ => .error .typeError
    | none => .ok "[object Object]"
termination_by structural v => v
/-- The text of `Array.prototype.join(",")`: `null` elements render as the empty
string, the others through ToString, whose error it passes on. -/
def JVal.joinElems : List JVal → Except JsError String
  | [] => .ok ""
  | x :: xs =>
    match (match x with
      | .null => Except.ok ""
      | v => JVal.toStr v : Except JsError String) with
    | .error e => .error e
    | .ok first =>
      match JVal.joinElems xs with
      | .error e => .error e
      | .ok rest =>
        .ok (first
          ++ (match xs with
            | [] => ""
            | _ => ",")
          ++ rest)
termination_by structural v => v
end

/-- The sixteen lowercase hexadecimal digits: `v.toString(16)` for `0 ≤ v < 16`. -/
def hexDigit (n : Nat) : Char :=
  "0123456789abcdef".toList.getD n '0'

/-- The escape sequence `JSON.stringify` writes for one character of a string. -/
def escapeChar (c : Char) : List Char :=
  if c.toNat = 34 then [Char.ofNat 92, Char.ofNat 34]
  else if c.toNat = 92 then [Char.ofNat 92, Char.ofNat 92]
  else if c.toNat = 8 then [Char.ofNat 92, 'b']
  else if c.toNat = 9 then [Char.ofNat 92, 't']
  else if c.toNat = 10 then [Char.ofNat 92, 'n']
  else if c.toNat = 12 then [Char.ofNat 92, 'f']
  else if c.toNat = 13 then [Char.ofNat 92, 'r']
  else if c.toNat < 32 then
    [Char.ofNat 92, 'u', '0', '0', hexDigit (c.toNat / 16), hexDigit (c.toNat % 16)]
  else [c]

/-- The quoted form `JSON.stringify` gives a string. -/
def quoteString (s : String) : String :=
  String.mk (Char.ofNat 34 :: (s.toList.flatMap escapeChar ++ [Char.ofNat 34]))

mutual
/-- The text `JSON.stringify` produces for a JSON value. -/
def JVal.stringify : JVal → String
  | .null => "null"
  | .bool b => if b then "true" else "false"
  | .num n _ => toString n
  | .str s => quoteString s
  | .arr xs => "[" ++ JVal.stringifyElems xs ++ "]"
  | .obj kvs => "\x7b" ++ JVal.stringifyProps kvs ++ "\x7d"
termination_by structural v => v
/-- The comma-separated elements of an array. -/
def JVal.stringifyElems : List JVal → String
  | [] => ""
  | x :: xs =>
    JVal.stringify x
    ++ (match xs with
      | [] => ""
      | _ => ",")
    ++ JVal.stringifyElems xs
termination_by structural v => v
/-- The comma-separated `"key":value` members of an object. -/
def JVal.stringifyProps : List (String × JVal) → String
  | [] => ""
  | (k, x) :: kvs =>
    quoteString k ++ ":" ++ JVal.stringify x
    ++ (match kvs with
      | [] => ""
      | _ => ",")
    ++ JVal.stringifyProps kvs
termination_by structural v => v
end

/-! ## Browser storage -/

/-- The text held under a storage key that the code only ever hands to
`JSON.parse`, represented by what `JSON.parse` makes of it. -/
inductive Stored (α : Type) where
  | missing
  | corrupt
  | json (v : α)

/-- The four keys of local storage the application uses.  `session_id` is read
as raw text; the other three are read through `JSON.parse`.  The user
directory is a JSON object keyed by email. -/
structure Store where
  session_id : Option String
  aixel_user : Stored JVal
  aixel_cart : Stored JVal
  aixel_users_db : Stored Obj

/-- The `localStorage` of the page.  The browser may deny access to it, and
every read raises (`denied`); it may hold a `Store` that can be read while every
`setItem` raises a `QuotaExceededError`, the quota being zero or used up
(`writeBlocked`); or it holds a `Store` whose reads and writes succeed
(`granted`). -/
inductive LocalStorage where
  | denied
  | writeBlocked (s : Store)
  | granted (s : Store)

/-- The text `JSON.parse(localStorage.getItem(key))` is applied to, turned into
its result: a missing key reads as `null`, which `JSON.parse` turns into
`null`; text that is not JSON raises a `SyntaxError`. -/
def parseStored : Stored JVal → Except JsError JVal
  | .missing => .ok .null
  | .corrupt => .error .syntaxError
  | .json v => .ok v

/-- The expression `JSON.parse(localStorage.getItem('aixel_user'))`: a missing
key reads as `null`, which `JSON.parse` turns into `null`; text that is not
JSON raises a `SyntaxError`; a denied storage raises on the read. -/
def readUser : LocalStorage → Except JsError JVal
  | .denied => .error .securityError
  | .writeBlocked s => parseStored s.aixel_user
  | .granted s => parseStored s.aixel_user

/-! ## tracking.js -/

/-- The constant `DEDUPE_WINDOW_MS`. -/
def DEDUPE_WINDOW_MS : Int := 2000

/-- The pattern string of `generateUUID`. -/
def uuidPattern : List Char := "xxxxxxxx-xxxx-4xxx-yxxx-xxxxxxxxxxxx".toList

/-- The callback of `generateUUID` for a matched character `c` and the draw
`r = Math.random() * 16 | 0`: `r` for an `x`, `r & 0x3 | 0x8` for a `y`,
written in base 16. -/
def uuidDigit (c : Char) (r : Fin 16) : Char :=
  hexDigit (if c = 'x' then r.val else (r.val &&& 3) ||| 8)

/-- The replacement `.replace(/[xy]/g, callback)`: matches are visited left to
right, the `i`-th match taking the `i`-th draw. -/
def replaceXY (rand : Nat → Fin 16) : Nat → List Char → List Char
  | _, [] => []
  | i, c :: cs =>
    if c = 'x' ∨ c = 'y' then uuidDigit c (rand i) :: replaceXY rand (i + 1) cs
    else c :: replaceXY rand i cs

/-- The function `generateUUID`; `rand i` is the value of
`Math.random() * 16 | 0` at the `i`-th draw. -/
def generateUUID (rand : Nat → Fin 16) : String :=
  String.mk (replaceXY rand 0 uuidPattern)

/-- The function `getSessionId`: the stored id when it is truthy (present and
non-empty), otherwise a generated one, which is written back; where the write
raises, so does the function. -/
def getSessionId (rand : Nat → Fin 16) : LocalStorage → Except JsError (String × LocalStorage)
  | .denied => .error .securityError
  | .writeBlocked s =>
    match s.session_id with
    | some id =>
      if id ≠ "" then .ok (id, .writeBlocked s)
      else .error .quotaExceededError
    | none => .error .quotaExceededError
  | .granted s =>
    match s.session_id with
    | some id =>
      if id ≠ "" then .ok (id, .granted s)
      else .ok (generateUUID rand, .granted { s with session_id := some (generateUUID rand) })
    | none => .ok (generateUUID rand, .granted { s with session_id := some (generateUUID rand) })

/-- The options bag `extraData` of `trackEvent`; an omitted member is `none`. -/
structure ExtraData where
  user_id : Option JVal := none
  revenue : Option JVal := none
  metadata : Option Obj := none

/-- The outcome of the request: `fetch` rejects, or it resolves and
`response.json()` either fails (`none`) or yields the parsed body. -/
inductive FetchOutcome where
  | rejected
  | resolved (body : Option JVal)

/-- What one call of `trackEvent` reads from the browser. -/
structure Env where
  now : Int
  isoTime : String
  pathname : String
  query : List (String × String)
  userAgent : String
  rand : Nat → Fin 16
  fetch : FetchOutcome

/-- The event record posted to `/api/track`. -/
structure Event where
  event_type : JVal
  session_id : JVal
  user_id : JVal
  timestamp : JVal
  page_url : JVal
  utm_source : JVal
  utm_medium : JVal
  utm_campaign : JVal
  platform : JVal
  device : JVal
  revenue : JVal
  metadata : JVal

/-- The module-level `eventCache` (a `Map` from key to time of last send),
local storage, and the bodies of the `fetch` calls issued so far. -/
structure State where
  eventCache : List (String × Int)
  storage : LocalStorage
  requests : List Event

/-- The method `URLSearchParams.get`: the value of the first pair with the
name, `null` when there is none.  The list is the parsed `location.search`. -/
def searchGet (query : List (String × String)) (name : String) : Option JVal :=
  (mapGet query name).map JVal.str

/-- Whether `needle` starts `hay`. -/
def startsWith : List Char → List Char → Bool
  | _, [] => true
  | [], _ :: _ => false
  | h :: hs, n :: ns => h == n && startsWith hs ns

/-- Whether `needle` occurs in `hay` as a contiguous run. -/
def occursIn (needle : List Char) : List Char → Bool
  | [] => startsWith [] needle
  | h :: hs => startsWith (h :: hs) needle || occursIn needle hs

/-- The test `/Mobile|Android|iPhone/i.test(ua)`: without the `u` flag, case
is ignored for the ASCII letters only. -/
def mobilePattern (ua : String) : Bool :=
  let low := ua.toList.map Char.toLower
  occursIn "mobile".toList low || occursIn "android".toList low || occursIn "iphone".toList low

/-- The third component of the key: the text of `user?.userId || 'anon'`, or
the `TypeError` its conversion to a string raises. -/
def userText (user : JVal) : Except JsError String :=
  (orDefault (user.prop "userId") (.str "anon")).toStr

/-- The fourth component of the key: the text of
`JSON.stringify(extraData.metadata || \x7b\x7d)`. -/
def metadataText (extraData : ExtraData) : String :=
  (JVal.obj (extraData.metadata.getD [])).stringify

/-- The four texts of the template literal, joined by `_`. -/
def keyText (eventType pathname user metadata : String) : String :=
  eventType ++ "_" ++ pathname ++ "_" ++ user ++ "_" ++ metadata

/-- The template literal that builds `cacheKey`; it raises where the
conversion of the user id does. -/
def cacheKey (eventType pathname : String) (user : JVal) (extraData : ExtraData) :
    Except JsError String :=
  match userText user with
  | .error e => .error e
  | .ok u => .ok (keyText eventType pathname u (metadataText extraData))

/-- The duplicate test `lastTracked && (now - lastTracked) < DEDUPE_WINDOW_MS`:
`lastTracked` is `undefined` when the key is absent, and `0` is falsy. -/
def isDuplicate (lastTracked : Option Int) (now : Int) : Bool :=
  match lastTracked with
  | none => false
  | some t => t != 0 && decide (now - t < DEDUPE_WINDOW_MS)

/-- The clean-up loop: every entry with `now - timestamp > DEDUPE_WINDOW_MS` is deleted. -/
def pruneCache (now : Int) (cache : List (String × Int)) : List (String × Int) :=
  cache.filter (fun e => !decide (now - e.2 > DEDUPE_WINDOW_MS))

/-- The object spread `{ ...target, ...source }`: each property of `source`
is defined on the target in turn. -/
def spread (target source : Obj) : Obj :=
  source.foldl (fun acc kv => mapSet acc kv.1 kv.2) target

/-- The object `mergedMetadata`. -/
def mergedMetadata (user : JVal) (extraData : ExtraData) : Obj :=
  spread
    [("user_email", orDefault (user.prop "email") .null),
     ("user_name", orDefault (user.prop "name") .null)]
    (extraData.metadata.getD [])

/-- The object `event`, given the session id `getSessionId()` returned. -/
def buildEvent (env : Env) (user : JVal) (sessionId eventType : String)
    (extraData : ExtraData) : Event :=
  { event_type := .str eventType
    session_id := .str sessionId
    user_id := orDefault (user.prop "userId") .null
    timestamp := .str env.isoTime
    page_url := .str env.pathname
    utm_source := orDefault (searchGet env.query "utm_source") (.str "direct")
    utm_medium := orDefault (searchGet env.query "utm_medium") (.str "none")
    utm_campaign := orDefault (searchGet env.query "utm_campaign") (.str "none")
    platform := .str "web"
    device := .str (if mobilePattern env.userAgent then "mobile" else "desktop")
    revenue := orDefault extraData.revenue (.num 0 (by decide))
    metadata := .obj (mergedMetadata user extraData) }

/-- The `try`/`catch` around the request: the parsed body when `fetch` resolves
and `response.json()` succeeds, `null` when either fails. -/
def transportResult : FetchOutcome → JVal
  | .rejected => .null
  | .resolved none => .null
  | .resolved (some v) => v

/-- The function `trackEvent`.  The result is the value the returned promise
resolves with, or the error it rejects with, together with the state the
call leaves. -/
def trackEvent (env : Env) (st : State) (eventType : String) (extraData : ExtraData) :
    Except JsError JVal × State :=
  match readUser st.storage with
  | .error e => (.error e, st)
  | .ok user =>
    match cacheKey eventType env.pathname user extraData with
    | .error e => (.error e, st)
    | .ok key =>
      if isDuplicate (mapGet st.eventCache key) env.now then (.ok .null, st)
      else
        let cache := pruneCache env.now (mapSet st.eventCache key env.now)
        match getSessionId env.rand st.storage with
        | .error e => (.error e, { st with eventCache := cache })
        | .ok (sessionId, storage) =>
          let event := buildEvent env user sessionId eventType extraData
          (.ok (transportResult env.fetch),
            { eventCache := cache, storage := storage, requests := st.requests ++ [event] })

/-! ## AppContext.jsx: login -/

/-- The user object `newUser` that `login` returns; `userId` is `undefined`
(`none`) when the directory entry carries none. -/
structure User where
  email : String
  name : String
  userId : Option JVal

/-- The value `JSON.parse(JSON.stringify(newUser))`: an `undefined` member is dropped. -/
def User.toJson (u : User) : JVal :=
  .obj ([("email", .str u.email), ("name", .str u.name)]
    ++ (match u.userId with
      | some v => [("userId", v)]
      | none => []))

/-- The property names every object inherits from `Object.prototype`. -/
def objectPrototypeNames : List String :=
  ["constructor", "__defineGetter__", "__defineSetter__", "hasOwnProperty",
   "__lookupGetter__", "__lookupSetter__", "isPrototypeOf", "propertyIsEnumerable",
   "toString", "valueOf", "__proto__", "toLocaleString"]

/-- The value of a property read `usersDB[email]` on an object. -/
inductive Member where
  | undefined
  | own (v : JVal)
  | inherited

/-- The read `usersDB[email]`: the own property when there is one, else what
`Object.prototype` supplies under that name, else `undefined`. -/
def member (o : Obj) (key : String) : Member :=
  match mapGet o key with
  | some v => .own v
  | none => if key ∈ objectPrototypeNames then .inherited else .undefined

/-- ToBoolean of a property read; inherited members are functions or objects. -/
def Member.truthy : Member → Bool
  | .undefined => false
  | .own v => v.truthy
  | .inherited => true

/-- The read `.userId` on the value of `usersDB[email]`. -/
def Member.userId : Member → Option JVal
  | .own v => v.prop "userId"
  | _ => none

/-- The expression `email.split('@')[0]`. -/
def localPart (email : String) : String :=
  String.mk (email.toList.takeWhile (fun c => c != '@'))

/-- The expression `name || email.split('@')[0]`; an omitted `name` is `none`. -/
def displayName (email : String) (name : Option String) : String :=
  match name with
  | some n => if n ≠ "" then n else localPart email
  | none => localPart email

/-- What `login` reads from the browser: the text of
`Math.random().toString(36).substr(2, 9)` and of `new Date().toISOString()`. -/
structure LoginEnv where
  randomSuffix : String
  isoTime : String

/-- The expression `JSON.parse(localStorage.getItem('aixel_users_db')) || {}`. -/
def readUsersDB : LocalStorage → Except JsError Obj
  | .denied => .error .securityError
  | .writeBlocked s =>
    match s.aixel_users_db with
    | .missing => .ok []
    | .corrupt => .error .syntaxError
    | .json db => .ok db
  | .granted s =>
    match s.aixel_users_db with
    | .missing => .ok []
    | .corrupt => .error .syntaxError
    | .json db => .ok db

/-- The function `login`: the user it returns (also the new `user` state of the
provider) and the storage it leaves.  Both branches write to storage, so where
`setItem` raises, `login` raises once the directory has been read. -/
def login (env : LoginEnv) (storage : LocalStorage) (email : String) (name : Option String) :
    Except JsError (User × LocalStorage) :=
  match storage, readUsersDB storage with
  | .granted s, .ok usersDB =>
    if (member usersDB email).truthy then
      let newUser : User :=
        { email := email, name := displayName email name,
          userId := (member usersDB email).userId }
      .ok (newUser, .granted { s with aixel_user := .json newUser.toJson })
    else
      let userId := "user_" ++ env.randomSuffix
      let entry : JVal :=
        .obj [("userId", .str userId), ("email", .str email),
              ("name", .str (displayName email name)), ("createdAt", .str env.isoTime)]
      let newUser : User :=
        { email := email, name := displayName email name, userId := some (.str userId) }
      .ok (newUser,
        .granted { s with aixel_users_db := .json (mapSet usersDB email entry),
                          aixel_user := .json newUser.toJson })
  | _, .error e => .error e
  | .writeBlocked _, .ok _ => .error .quotaExceededError
  | .denied, _ => .error .securityError

/-! ## demo_site_old/tracking.js -/

/-- The `device` member of the legacy `trackEvent` (line 48 of
`demo_site_old/tracking.js`): the same test on `navigator.userAgent`. -/
def legacyDevice (ua : String) : JVal :=
  .str (if mobilePattern ua then "mobile" else "desktop")

/-- The object `event` of the legacy `trackEvent`: the ten members it writes,
then the spread of the whole options object `extraData`, whose members
overwrite members of the same name. -/
def legacyEvent (env : Env) (user : JVal) (sessionId eventType : String)
    (extraData : Obj) : Obj :=
  spread
    [("event_type", .str eventType),
     ("session_id", .str sessionId),
     ("user_id", orDefault (user.prop "userId") .null),
     ("timestamp", .str env.isoTime),
     ("page_url", .str env.pathname),
     ("utm_source", orDefault (searchGet env.query "utm_source") (.str "direct")),
     ("utm_medium", orDefault (searchGet env.query "utm_medium") (.str "none")),
     ("utm_campaign", orDefault (searchGet env.query "utm_campaign") (.str "none")),
     ("platform", .str "web"),
     ("device", legacyDevice env.userAgent)]
    extraData

/-! ## AppContext.jsx: the cart -/

/-- The updater of `addToCart`: `prev => [...prev, product]`. -/
def addToCart (prev : List JVal) (product : JVal) : List JVal :=
  prev ++ [product]

/-- The filter `prev.filter((_, i) => i !== index)` from position `i` on: the
entry at position `i` is kept unless `i` is `index`. -/
def filterNotIndex (index : Int) : Nat → List JVal → List JVal
  | _, [] => []
  | i, x :: xs =>
    if (i : Int) ≠ index then x :: filterNotIndex index (i + 1) xs
    else filterNotIndex index (i + 1) xs

/-- The updater of `removeFromCart`; `index` is an integer. -/
def removeFromCart (prev : List JVal) (index : Int) : List JVal :=
  filterNotIndex index 0 prev

/-- The function `clearCart`: the new cart state, and what
`localStorage.removeItem('aixel_cart')` does to storage. -/
def clearCart (storage : LocalStorage) : List JVal × Except JsError LocalStorage :=
  ([],
    match storage with
    | .denied => .error .securityError
    | .writeBlocked s => .ok (.writeBlocked { s with aixel_cart := .missing })
    | .granted s => .ok (.granted { s with aixel_cart := .missing }))

/-! ## Binary64 arithmetic: the cart totals of Cart.jsx and Checkout.jsx -/

/-- A JavaScript number (IEEE 754 binary64): not-a-number, an infinity, or the
finite value `(-1)^neg * mant * 2^exp`.  The operations below return finite
values in normal form: `mant < 2^53`, `-1074 ≤ exp ≤ 971`, `2^52 ≤ mant` unless
`exp = -1074` (subnormal), and zero as `mant = 0`, `exp = 0`. -/
inductive F64 where
  | nan
  | inf (neg : Bool)
  | fin (neg : Bool) (mant : Nat) (exp : Int)
  deriving DecidableEq, Repr

/-- The number of binary digits of `n`, counted in at most `fuel` steps. -/
def bitLength : Nat → Nat → Nat
  | 0, _ => 0
  | fuel + 1, n => if n = 0 then 0 else bitLength fuel (n / 2) + 1

/-- Rounding of the exact value `(-1)^neg * n * 2^k` to binary64, to nearest with
ties to the even mantissa: the exponent is chosen so that 53 digits remain (not
below `-1074`), the digits cut off decide the rounding, and a value that rounds
to `2^1024` or more becomes an infinity. -/
def F64.round (neg : Bool) (n : Nat) (k : Int) : F64 :=
  let e := max (k + (bitLength n n : Int) - 53) (-1074)
  let m :=
    if e ≤ k then n * 2 ^ (k - e).toNat
    else
      let d := 2 ^ (e - k).toNat
      if 2 * (n % d) > d ∨ (2 * (n % d) = d ∧ (n / d) % 2 = 1) then n / d + 1 else n / d
  if m = 0 then .fin neg 0 0
  else if m = 2 ^ 53 then (if e + 1 > 971 then .inf neg else .fin neg (2 ^ 52) (e + 1))
  else if e > 971 then .inf neg
  else .fin neg m e

/-- The operator `+` on numbers: the exact sum, rounded.  An exact sum of zero is
`+0` unless both operands are negative zeros; opposite infinities give NaN. -/
def F64.add : F64 → F64 → F64
  | .nan, _ => .nan
  | _, .nan => .nan
  | .inf a, .inf b => if a = b then .inf a else .nan
  | .inf a, .fin _ _ _ => .inf a
  | .fin _ _ _, .inf b => .inf b
  | .fin s1 m1 e1, .fin s2 m2 e2 =>
    let e := min e1 e2
    let a : Int := (if s1 then -1 else 1) * (m1 * 2 ^ (e1 - e).toNat : Nat)
    let b : Int := (if s2 then -1 else 1) * (m2 * 2 ^ (e2 - e).toNat : Nat)
    if a + b = 0 then .fin (s1 && s2) 0 0
    else F64.round (decide (a + b < 0)) (a + b).natAbs e

/-- The operator `*` on numbers: the exact product, rounded; the sign is the
exclusive or of the signs; an infinity times zero gives NaN. -/
def F64.mul : F64 → F64 → F64
  | .nan, _ => .nan
  | _, .nan => .nan
  | .inf a, .inf b => .inf (a != b)
  | .inf a, .fin s m _ => if m = 0 then .nan else .inf (a != s)
  | .fin s m _, .inf b => if m = 0 then .nan else .inf (s != b)
  | .fin s1 m1 e1, .fin s2 m2 e2 => F64.round (s1 != s2) (m1 * m2) (e1 + e2)

/-- The literal `0`. -/
def F64.zero : F64 := .fin false 0 0

/-- The literal `0.1`: the binary64 number nearest to one tenth. -/
def F64.tenth : F64 := .fin false 7205759403792794 (-56)

/-- The number a natural-number literal denotes. -/
def F64.ofNat (n : Nat) : F64 := F64.round false n 0

/-- The exact value of a finite number. -/
def F64.value : F64 → Option ℚ
  | .fin neg m e => some ((if neg then -1 else 1) * (m : ℚ) * (2 : ℚ) ^ e)
  | _ => none

/-- The method `toFixed(2)`: for a finite `x` below `10^21` in magnitude, the
digits of the integer `n` with `n / 100` nearest to `|x|` (the larger one on a
tie), with a point before the last two and a minus sign when `x < 0`.  For
larger magnitudes the method defers to ToString, which is not modelled
(`none`). -/
def F64.toFixed2 : F64 → Option String
  | .nan => some "NaN"
  | .inf neg => some (if neg then "-Infinity" else "Infinity")
  | .fin neg m e =>
    let big : Bool :=
      if 0 ≤ e then decide (m * 2 ^ e.toNat ≥ 10 ^ 21)
      else decide (m ≥ 10 ^ 21 * 2 ^ (-e).toNat)
    if big then none
    else
      let n : Nat :=
        if 0 ≤ e then 100 * m * 2 ^ e.toNat
        else (200 * m + 2 ^ (-e).toNat) / (2 * 2 ^ (-e).toNat)
      some ((if neg && m != 0 then "-" else "")
        ++ toString (n / 100) ++ "." ++ toString (n % 100 / 10) ++ toString (n % 10))

/-- A cart entry as the totals read it: its `price`, a number. -/
structure PricedEntry where
  price : F64

/-- The three values both pages compute. -/
structure Totals where
  subtotal : F64
  tax : F64
  total : F64

/-- Lines 16-18 of `Cart.jsx`: `cart.reduce((sum, item) => sum + item.price, 0)`,
`subtotal * 0.1`, `subtotal + tax`. -/
def cartPageTotals (cart : List PricedEntry) : Totals :=
  let subtotal := cart.foldl (fun sum item => F64.add sum item.price) F64.zero
  let tax := F64.mul subtotal F64.tenth
  let total := F64.add subtotal tax
  { subtotal := subtotal, tax := tax, total := total }

/-- Lines 22-24 of `Checkout.jsx`: the same three expressions. -/
def checkoutPageTotals (cart : List PricedEntry) : Totals :=
  let subtotal := cart.foldl (fun sum item => F64.add sum item.price) F64.zero
  let tax := F64.mul subtotal F64.tenth
  let total := F64.add subtotal tax
  { subtotal := subtotal, tax := tax, total := total }

/-- The cart `[{price: 299}, {price: 199}]`. -/
def twoItemCart : List PricedEntry :=
  [{ price := F64.ofNat 299 }, { price := F64.ofNat 199 }]

/-! ## The specification's words -/

/-- The user agent `ua` contains `needle` as a substring, letters compared
without regard to (ASCII) case. -/
def containsIgnoringCase (ua needle : String) : Prop :=
  ∃ pre mid post : List Char, ua.toList = pre ++ mid ++ post
    ∧ mid.map Char.toLower = needle.toList.map Char.toLower

/-- The character is one of the sixteen lowercase hexadecimal digits. -/
def isLowerHex (c : Char) : Prop :=
  c ∈ ['0', '1', '2', '3', '4', '5', '6', '7', '8', '9', 'a', 'b', 'c', 'd', 'e', 'f']

/-- The positions of a generated id that hold a freely drawn hexadecimal digit,
each with the number of the draw that fills it. -/
def hexPositions : List (Nat × Nat) :=
  [(0, 0), (1, 1), (2, 2), (3, 3), (4, 4), (5, 5), (6, 6), (7, 7),
   (9, 8), (10, 9), (11, 10), (12, 11),
   (15, 12), (16, 13), (17, 14),
   (20, 16), (21, 17), (22, 18),
   (24, 19), (25, 20), (26, 21), (27, 22), (28, 23), (29, 24),
   (30, 25), (31, 26), (32, 27), (33, 28), (34, 29), (35, 30)]

/-! ## Sample inputs -/

/-- A storage the browser grants, holding nothing. -/
def emptyStore : Store :=
  { session_id := none, aixel_user := .missing, aixel_cart := .missing, aixel_users_db := .missing }

/-- The state of a freshly loaded page: empty cache, empty storage, no request issued. -/
def freshState : State :=
  { eventCache := [], storage := .granted emptyStore, requests := [] }

/-- A desktop browser on `/cart` with no query string, at clock reading `now`,
whose request to the backend is rejected. -/
def cartEnv (now : Int) : Env :=
  { now := now, isoTime := "1970-01-01T00:00:00.000Z", pathname := "/cart", query := [],
    userAgent := "Mozilla/5.0 (Windows NT 10.0; Win64; x64)", rand := fun _ => 7,
    fetch := .rejected }

/-- A persisted user whose email and name are empty strings. -/
def blankUser : JVal :=
  .obj [("email", .str ""), ("name", .str ""), ("userId", .str "user_k3x9q1z7p")]

/-- A persisted user with all three members filled in. -/
def annUser : JVal :=
  .obj [("email", .str "ann@example.org"), ("name", .str "Ann"),
        ("userId", .str "user_k3x9q1z7p")]

/-- Caller metadata that names a page and overrides `user_email`. -/
def overrideMeta : Obj :=
  [("page", .str "cart"), ("user_email", .str "other@example.org")]

/-- A storage whose `aixel_user` text is not JSON. -/
def corruptUserStore : Store :=
  { emptyStore with aixel_user := .corrupt }

/-- The directory entry of a returning user. -/
def annEntry : Obj :=
  [("userId", .str "user_k3x9q1z7p"), ("email", .str "ann@example.org"),
   ("name", .str "Ann"), ("createdAt", .str "2025-01-01T00:00:00.000Z")]

/-- A storage whose user directory holds one user. -/
def returningStore : Store :=
  { emptyStore with aixel_users_db := .json [("ann@example.org", .obj annEntry)] }

/-- A storage whose user directory has the key `ann@example.org` with the entry
`null`. -/
def nullEntryStore : Store :=
  { emptyStore with aixel_users_db := .json [("ann@example.org", .null)] }

/-- The browser readings `login` takes in the examples. -/
def sampleLoginEnv : LoginEnv :=
  { randomSuffix := "zzzzzzzzz", isoTime := "2025-06-01T00:00:00.000Z" }

/-- A persisted user whose `userId` is the empty string. -/
def emptyIdUser : JVal :=
  .obj [("email", .str "ann@example.org"), ("name", .str "Ann"), ("userId", .str "")]

/-- A fresh page whose storage holds `emptyIdUser`. -/
def emptyIdState : State :=
  { freshState with storage := .granted { emptyStore with aixel_user := .json emptyIdUser } }

/-- The browser of `cartEnv 5000` on the URL `/cart?utm_source=`. -/
def emptySourceEnv : Env :=
  { cartEnv 5000 with query := [("utm_source", "")] }

/-- The browser of `cartEnv 5000` on a URL that carries a source and a campaign
and no medium. -/
def adEnv : Env :=
  { cartEnv 5000 with query := [("utm_source", "dashboard"), ("utm_campaign", "spring")] }

/-- A phone browser on `/cart`, as `cartEnv 5000` otherwise. -/
def phoneEnv : Env :=
  { cartEnv 5000 with
    userAgent := "Mozilla/5.0 (iPhone; CPU iPhone OS 17_0 like Mac OS X) AppleWebKit/605.1.15" }

/-- A page whose cache holds a send on `/products` at clock reading 1000 and a
send on `/cart` at clock reading 9500. -/
def staleState : State :=
  { freshState with
    eventCache := [(keyText "page_view" "/products" "anon" "\x7b\x7d", 1000),
                   (keyText "page_view" "/cart" "anon" "\x7b\x7d", 9500)] }

/-! ## Key/value lists -/

theorem mapGet_mapSet_self {β : Type} (l : List (String × β)) (k : String) (v : β) :
    mapGet (mapSet l k v) k = some v := by
  induction l with
  | nil => simp [mapSet, mapGet]
  | cons hd tl ih =>
    obtain ⟨k0, x⟩ := hd
    by_cases h : k0 = k
    · simp [mapSet, mapGet, h]
    · simp [mapSet, mapGet, h, ih]

theorem mapGet_mapSet_other {β : Type} (l : List (String × β)) (k k2 : String) (v : β)
    (hne : k ≠ k2) : mapGet (mapSet l k v) k2 = mapGet l k2 := by
  induction l with
  | nil => simp [mapSet, mapGet, hne]
  | cons hd tl ih =>
    obtain ⟨k0, x⟩ := hd
    by_cases h : k0 = k
    · subst h
      simp [mapSet, mapGet, hne]
    · by_cases h2 : k0 = k2
      · subst h2
        simp [mapSet, mapGet, h]
      · simp [mapSet, mapGet, h, h2, ih]

theorem mapGet_filter_keep {β : Type} (p : String × β → Bool) (l : List (String × β))
    (k : String) (v : β) (hget : mapGet l k = some v) (hp : p (k, v) = true) :
    mapGet (l.filter p) k = some v := by
  induction l with
  | nil => simp [mapGet] at hget
  | cons hd tl ih =>
    obtain ⟨k0, x⟩ := hd
    by_cases h : k0 = k
    · subst h
      simp only [mapGet, if_true, Option.some.injEq] at hget
      subst hget
      simp [List.filter, hp, mapGet]
    · simp only [mapGet, h, if_false] at hget
      by_cases hq : p (k0, x) = true
      · simp [List.filter, hq, mapGet, h, ih hget]
      · simp [List.filter, hq, ih hget]

/-! ## Session resolver -/

theorem replaceXY_length (rand : Nat → Fin 16) (i : Nat) (cs : List Char) :
    (replaceXY rand i cs).length = cs.length := by
  induction cs generalizing i with
  | nil => simp [replaceXY]
  | cons c cs ih =>
    unfold replaceXY
    split <;> simp [ih]

theorem generateUUID_length (rand : Nat → Fin 16) : (generateUUID rand).length = 36 := by
  unfold generateUUID
  show (replaceXY rand 0 uuidPattern).length = 36
  rw [replaceXY_length]
  decide

theorem generateUUID_ne_empty (rand : Nat → Fin 16) : generateUUID rand ≠ "" := by
  intro h
  have hl := generateUUID_length rand
  rw [h] at hl
  simp at hl

theorem getSessionId_granted (rand : Nat → Fin 16) (s : Store) :
    ∃ id s2, getSessionId rand (.granted s) = .ok (id, .granted s2) ∧ id ≠ ""
      ∧ s2.session_id = some id ∧ s2.aixel_user = s.aixel_user
      ∧ s2.aixel_users_db = s.aixel_users_db ∧ s2.aixel_cart = s.aixel_cart := by
  obtain ⟨sid, u, c, db⟩ := s
  cases sid with
  | none => exact ⟨_, _, rfl, generateUUID_ne_empty rand, rfl, rfl, rfl, rfl⟩
  | some id =>
    by_cases hid : id = ""
    · subst hid
      exact ⟨_, _, rfl, generateUUID_ne_empty rand, rfl, rfl, rfl, rfl⟩
    · refine ⟨id, _, ?_, hid, rfl, rfl, rfl, rfl⟩
      simp [getSessionId, hid]

/-! ## trackEvent: the two paths -/

theorem trackEvent_skipped (env : Env) (st : State) (eventType : String) (extraData : ExtraData)
    (user : JVal) (key : String) (hu : readUser st.storage = .ok user)
    (hkey : cacheKey eventType env.pathname user extraData = .ok key)
    (hd : isDuplicate (mapGet st.eventCache key) env.now = true) :
    trackEvent env st eventType extraData = (.ok .null, st) := by
  simp [trackEvent, hu, hkey, hd]

theorem trackEvent_of_session (env : Env) (st : State) (eventType : String)
    (extraData : ExtraData) (user : JVal) (key sid : String) (storage2 : LocalStorage)
    (hu : readUser st.storage = .ok user)
    (hkey : cacheKey eventType env.pathname user extraData = .ok key)
    (hd : isDuplicate (mapGet st.eventCache key) env.now = false)
    (hsess : getSessionId env.rand st.storage = .ok (sid, storage2)) :
    trackEvent env st eventType extraData =
      (.ok (transportResult env.fetch),
        { eventCache := pruneCache env.now (mapSet st.eventCache key env.now),
          storage := storage2,
          requests := st.requests ++ [buildEvent env user sid eventType extraData] }) := by
  simp [trackEvent, hu, hkey, hd, hsess]

theorem trackEvent_session_raises (env : Env) (st : State) (eventType : String)
    (extraData : ExtraData) (user : JVal) (key : String) (e : JsError)
    (hu : readUser st.storage = .ok user)
    (hkey : cacheKey eventType env.pathname user extraData = .ok key)
    (hd : isDuplicate (mapGet st.eventCache key) env.now = false)
    (hsess : getSessionId env.rand st.storage = .error e) :
    trackEvent env st eventType extraData =
      (.error e,
        { st with eventCache := pruneCache env.now (mapSet st.eventCache key env.now) }) := by
  simp [trackEvent, hu, hkey, hd, hsess]

theorem trackEvent_sent (env : Env) (st : State) (eventType : String) (extraData : ExtraData)
    (user : JVal) (key : String) (s : Store) (hs : st.storage = .granted s)
    (hu : readUser st.storage = .ok user)
    (hkey : cacheKey eventType env.pathname user extraData = .ok key)
    (hd : isDuplicate (mapGet st.eventCache key) env.now = false) :
    ∃ sid s2, getSessionId env.rand st.storage = .ok (sid, .granted s2)
      ∧ sid ≠ "" ∧ s2.session_id = some sid
      ∧ readUser (.granted s2) = .ok user
      ∧ trackEvent env st eventType extraData =
        (.ok (transportResult env.fetch),
          { eventCache := pruneCache env.now (mapSet st.eventCache key env.now),
            storage := .granted s2,
            requests := st.requests ++ [buildEvent env user sid eventType extraData] }) := by
  obtain ⟨sid, s2, hg, hne, hsid, huser, _, _⟩ := getSessionId_granted env.rand s
  rw [← hs] at hg
  refine ⟨sid, s2, hg, hne, hsid, ?_, ?_⟩
  · rw [hs] at hu
    simpa [readUser, huser] using hu
  · exact trackEvent_of_session env st eventType extraData user key sid _ hu hkey hd hg

theorem isDuplicate_false_of_window (last : Option Int) (now : Int)
    (h : last = none ∨ ∃ t, last = some t ∧ now - t ≥ DEDUPE_WINDOW_MS) :
    isDuplicate last now = false := by
  rcases h with h | ⟨t, h, ht⟩
  · subst h
    rfl
  · subst h
    have : ¬ (now - t < DEDUPE_WINDOW_MS) := not_lt.mpr ht
    simp [isDuplicate, this]

theorem pruneCache_keeps_now (now : Int) (cache : List (String × Int)) (key : String) :
    mapGet (pruneCache now (mapSet cache key now)) key = some now := by
  unfold pruneCache
  apply mapGet_filter_keep _ _ _ _ (mapGet_mapSet_self cache key now)
  simp [DEDUPE_WINDOW_MS]

/-- Inside the window a recorded send time other than 0 suppresses the call:
it returns `null`, issues no request and leaves cache and storage as they were. -/
theorem trackEvent_duplicate_skipped (env : Env) (st : State) (eventType : String)
    (extraData : ExtraData) (user : JVal) (key : String) (t : Int)
    (hu : readUser st.storage = .ok user)
    (hkey : cacheKey eventType env.pathname user extraData = .ok key)
    (hget : mapGet st.eventCache key = some t)
    (h0 : t ≠ 0) (hlt : env.now - t < DEDUPE_WINDOW_MS) :
    trackEvent env st eventType extraData = (.ok .null, st) := by
  apply trackEvent_skipped env st eventType extraData user key hu hkey
  simp [isDuplicate, hget, h0, hlt]

/-- Two identical calls less than 2000 ms apart, the first one sent at a clock
reading other than 0, produce exactly one request: the second call returns
`null` and changes nothing. -/
theorem trackEvent_twice_within_window (env env2 : Env) (st : State) (eventType : String)
    (extraData : ExtraData) (user : JVal) (key : String) (s : Store)
    (hs : st.storage = .granted s)
    (hu : readUser st.storage = .ok user)
    (hkey : cacheKey eventType env.pathname user extraData = .ok key)
    (hd : isDuplicate (mapGet st.eventCache key) env.now = false)
    (hpath : env2.pathname = env.pathname) (h0 : env.now ≠ 0)
    (hsoon : env2.now - env.now < DEDUPE_WINDOW_MS) :
    trackEvent env2 (trackEvent env st eventType extraData).2 eventType extraData
        = (.ok .null, (trackEvent env st eventType extraData).2)
    ∧ ∃ e, (trackEvent env st eventType extraData).2.requests = st.requests ++ [e] := by
  obtain ⟨sid, s2, _, _, _, hu2, hrun⟩ :=
    trackEvent_sent env st eventType extraData user key s hs hu hkey hd
  rw [hrun]
  refine ⟨?_, _, rfl⟩
  exact trackEvent_duplicate_skipped env2 _ eventType extraData user key env.now hu2
    (by rw [hpath]; exact hkey) (pruneCache_keeps_now env.now st.eventCache key) h0 hsoon

/-! ## C1 -/

/-- C1, evaluated where the code departs from it: the cache records time 0 as the
last send for the key and the clock reads 1000, less than 2000 ms later, yet
`trackEvent` issues a request (with a recorded time of 1 it issues none); so two
identical calls at clock readings 0 and 1000 produce two transport calls. -/
theorem trackEvent_epoch_entry_not_suppressed :
    cacheKey "page_view" "/cart" .null {} = .ok "page_view_/cart_anon_\x7b\x7d"
    ∧ mapGet [("page_view_/cart_anon_\x7b\x7d", (0 : Int))] "page_view_/cart_anon_\x7b\x7d"
        = some 0
    ∧ (0 : Int) ≤ 1000 - 0 ∧ (1000 : Int) - 0 < DEDUPE_WINDOW_MS
    ∧ (trackEvent (cartEnv 1000)
        { freshState with eventCache := [("page_view_/cart_anon_\x7b\x7d", 0)] }
        "page_view" {}).2.requests.length = 1
    ∧ (trackEvent (cartEnv 1000)
        { freshState with eventCache := [("page_view_/cart_anon_\x7b\x7d", 1)] }
        "page_view" {}).2.requests.length = 0
    ∧ (trackEvent (cartEnv 0) freshState "page_view" {}).2.eventCache
        = [("page_view_/cart_anon_\x7b\x7d", 0)]
    ∧ (trackEvent (cartEnv 1000) (trackEvent (cartEnv 0) freshState "page_view" {}).2
        "page_view" {}).2.requests.length = 2 :=
  ⟨rfl, by decide, by decide, by decide, by decide, by decide, by decide, by decide⟩

/-! ## C2 -/

/-- C2: when the cache has no entry for the key, or the recorded time is at least
2000 ms before `now`, `trackEvent` is not suppressed: it issues exactly one
request, resolves with the transport result, and leaves `now` recorded under
the key; a second identical call at least 2000 ms later issues a second request.
The key is the one the call builds, and storage is one that can be read and
written. -/
theorem trackEvent_outside_window_sent (env : Env) (st : State) (eventType : String)
    (extraData : ExtraData) (user : JVal) (key : String) (s : Store)
    (hs : st.storage = .granted s)
    (hu : readUser st.storage = .ok user)
    (hkey : cacheKey eventType env.pathname user extraData = .ok key)
    (hk : mapGet st.eventCache key = none
      ∨ ∃ t, mapGet st.eventCache key = some t ∧ env.now - t ≥ DEDUPE_WINDOW_MS) :
    (∃ e, (trackEvent env st eventType extraData).2.requests = st.requests ++ [e])
    ∧ (trackEvent env st eventType extraData).1 = .ok (transportResult env.fetch)
    ∧ mapGet (trackEvent env st eventType extraData).2.eventCache key = some env.now
    ∧ ∀ env2 : Env, env2.pathname = env.pathname → env2.now - env.now ≥ DEDUPE_WINDOW_MS →
        ∃ e1 e2, (trackEvent env2 (trackEvent env st eventType extraData).2
          eventType extraData).2.requests = st.requests ++ [e1, e2] := by
  have hd := isDuplicate_false_of_window _ env.now hk
  obtain ⟨sid, s2, _, _, _, hu2, hrun⟩ :=
    trackEvent_sent env st eventType extraData user key s hs hu hkey hd
  have hcache := pruneCache_keeps_now env.now st.eventCache key
  refine ⟨⟨_, by rw [hrun]⟩, by rw [hrun], by rw [hrun]; exact hcache, ?_⟩
  intro env2 hpath hlate
  rw [hrun]
  have hkey2 : cacheKey eventType env2.pathname user extraData = .ok key := by
    rw [hpath]
    exact hkey
  have hd2 : isDuplicate (mapGet
      (pruneCache env.now (mapSet st.eventCache key env.now)) key) env2.now = false :=
    isDuplicate_false_of_window _ env2.now (Or.inr ⟨env.now, hcache, hlate⟩)
  obtain ⟨sid2, s3, _, _, _, _, hrun2⟩ := trackEvent_sent env2
    { eventCache := pruneCache env.now (mapSet st.eventCache key env.now),
      storage := .granted s2,
      requests := st.requests ++ [buildEvent env user sid eventType extraData] }
    eventType extraData user key s2 rfl hu2 hkey2 hd2
  refine ⟨buildEvent env user sid eventType extraData,
    buildEvent env2 user sid2 eventType extraData, ?_⟩
  rw [hrun2]
  simp

/-- C2 at a concrete input: a fresh page on `/cart` at clock reading 5000. -/
theorem trackEvent_outside_window_sent_witness :
    (∃ e, (trackEvent (cartEnv 5000) freshState "page_view" {}).2.requests
        = freshState.requests ++ [e])
    ∧ (trackEvent (cartEnv 5000) freshState "page_view" {}).1
        = .ok (transportResult (cartEnv 5000).fetch)
    ∧ mapGet (trackEvent (cartEnv 5000) freshState "page_view" {}).2.eventCache
        "page_view_/cart_anon_\x7b\x7d" = some (cartEnv 5000).now
    ∧ ∀ env2 : Env, env2.pathname = (cartEnv 5000).pathname →
        env2.now - (cartEnv 5000).now ≥ DEDUPE_WINDOW_MS →
        ∃ e1 e2, (trackEvent env2 (trackEvent (cartEnv 5000) freshState "page_view" {}).2
          "page_view" {}).2.requests = freshState.requests ++ [e1, e2] :=
  trackEvent_outside_window_sent (cartEnv 5000) freshState "page_view" {} .null
    "page_view_/cart_anon_\x7b\x7d" emptyStore rfl rfl rfl (Or.inl rfl)

/-! ## Object spread -/

theorem mapGet_eq_none_of_not_mem {β : Type} (l : List (String × β)) (k : String)
    (h : k ∉ l.map Prod.fst) : mapGet l k = none := by
  induction l with
  | nil => rfl
  | cons hd tl ih =>
    obtain ⟨k0, x⟩ := hd
    simp only [List.map_cons, List.mem_cons, not_or] at h
    have hne : ¬ k0 = k := fun e => h.1 e.symm
    simp [mapGet, hne, ih h.2]

theorem spread_get_of_absent (target source : Obj) (k : String)
    (h : mapGet source k = none) : mapGet (spread target source) k = mapGet target k := by
  induction source generalizing target with
  | nil => rfl
  | cons hd tl ih =>
    obtain ⟨k0, x⟩ := hd
    by_cases hk : k0 = k
    · simp [mapGet, hk] at h
    · simp only [mapGet, hk, if_false] at h
      show mapGet (spread (mapSet target k0 x) tl) k = mapGet target k
      rw [ih (mapSet target k0 x) h, mapGet_mapSet_other target k0 k x hk]

theorem spread_get_of_present (target source : Obj) (k : String) (v : JVal)
    (hnd : (source.map Prod.fst).Nodup) (h : mapGet source k = some v) :
    mapGet (spread target source) k = some v := by
  induction source generalizing target with
  | nil => simp [mapGet] at h
  | cons hd tl ih =>
    obtain ⟨k0, x⟩ := hd
    simp only [List.map_cons, List.nodup_cons] at hnd
    show mapGet (spread (mapSet target k0 x) tl) k = some v
    by_cases hk : k0 = k
    · subst hk
      simp only [mapGet, if_true, Option.some.injEq] at h
      subst h
      rw [spread_get_of_absent _ tl k0 (mapGet_eq_none_of_not_mem tl k0 hnd.1),
        mapGet_mapSet_self]
    · simp only [mapGet, hk, if_false] at h
      exact ih (mapSet target k0 x) hnd.2 h

/-! ## C3 -/

/-- C3, refuted as stated: for a logged-in user whose email and name are the empty
string and a caller who supplies no metadata keys, the merged `user_email` and
`user_name` are `null`, not the user's email and name. -/
theorem mergedMetadata_blank_user_counterexample :
    blankUser.prop "email" = some (.str "") ∧ blankUser.prop "name" = some (.str "")
    ∧ mapGet (mergedMetadata blankUser { metadata := some [] }) "user_email" = some .null
    ∧ mapGet (mergedMetadata blankUser { metadata := some [] }) "user_name" = some .null
    ∧ JVal.null ≠ JVal.str "" :=
  ⟨rfl, rfl, rfl, rfl, by simp⟩

/-- C3 as amended: the event's metadata is the spread of the base object with the
caller's object `m`; every key of `m` carries `m`'s value; `user_email` and
`user_name`, when `m` does not supply them, are the persisted user's `email` and
`name` when that value is truthy and `null` otherwise (no user, member missing,
or a falsy member such as the empty string); there are no other keys. -/
theorem mergedMetadata_precedence (env : Env) (user : JVal) (sessionId eventType : String)
    (extraData : ExtraData) (m : Obj) (hm : extraData.metadata = some m)
    (hnd : (m.map Prod.fst).Nodup) :
    (buildEvent env user sessionId eventType extraData).metadata
        = .obj (mergedMetadata user extraData)
    ∧ (∀ k v, mapGet m k = some v → mapGet (mergedMetadata user extraData) k = some v)
    ∧ (mapGet m "user_email" = none →
        mapGet (mergedMetadata user extraData) "user_email"
          = some (match user.prop "email" with
            | some v => if v.truthy then v else .null
            | none => .null))
    ∧ (mapGet m "user_name" = none →
        mapGet (mergedMetadata user extraData) "user_name"
          = some (match user.prop "name" with
            | some v => if v.truthy then v else .null
            | none => .null))
    ∧ (∀ k, mapGet m k = none → k ≠ "user_email" → k ≠ "user_name" →
        mapGet (mergedMetadata user extraData) k = none) := by
  refine ⟨rfl, ?_, ?_, ?_, ?_⟩
  · intro k v hk
    simp only [mergedMetadata, hm, Option.getD_some]
    exact spread_get_of_present _ m k v hnd hk
  · intro hk
    simp only [mergedMetadata, hm, Option.getD_some]
    rw [spread_get_of_absent _ m _ hk]
    simp only [mapGet, if_true, orDefault]
  · intro hk
    simp only [mergedMetadata, hm, Option.getD_some]
    rw [spread_get_of_absent _ m _ hk]
    have hne : ¬ ("user_email" = "user_name") := by decide
    simp only [mapGet, hne, if_false, if_true, orDefault]
  · intro k hk h1 h2
    simp only [mergedMetadata, hm, Option.getD_some]
    rw [spread_get_of_absent _ m _ hk]
    simp [mapGet, Ne.symm h1, Ne.symm h2]

/-- C3 as amended, at a concrete input: a full user record and caller metadata that
overrides `user_email`. -/
theorem mergedMetadata_precedence_witness :
    (overrideMeta.map Prod.fst).Nodup
    ∧ mapGet (mergedMetadata annUser { metadata := some overrideMeta }) "user_email"
        = some (.str "other@example.org")
    ∧ mapGet (mergedMetadata annUser { metadata := some overrideMeta }) "user_name"
        = some (.str "Ann") :=
  ⟨by decide,
    (mergedMetadata_precedence (cartEnv 5000) annUser "s" "page_view"
      { metadata := some overrideMeta } overrideMeta rfl (by decide)).2.1
      "user_email" (.str "other@example.org") rfl,
    (mergedMetadata_precedence (cartEnv 5000) annUser "s" "page_view"
      { metadata := some overrideMeta } overrideMeta rfl (by decide)).2.2.2.1 rfl⟩

/-! ## C4 -/

/-- C4: for a call that passes deduplication (on a storage that can be read and
written), a rejected request or a response body that fails to parse makes
`trackEvent` resolve with `null`, with no exception; when both succeed it
resolves with exactly the parsed body. -/
theorem trackEvent_transport_contained (env : Env) (st : State) (eventType : String)
    (extraData : ExtraData) (user : JVal) (key : String) (s : Store)
    (hs : st.storage = .granted s)
    (hu : readUser st.storage = .ok user)
    (hkey : cacheKey eventType env.pathname user extraData = .ok key)
    (hd : isDuplicate (mapGet st.eventCache key) env.now = false) :
    (env.fetch = .rejected → (trackEvent env st eventType extraData).1 = .ok .null)
    ∧ (env.fetch = .resolved none → (trackEvent env st eventType extraData).1 = .ok .null)
    ∧ (∀ v, env.fetch = .resolved (some v) →
        (trackEvent env st eventType extraData).1 = .ok v) := by
  obtain ⟨sid, s2, _, _, _, _, hrun⟩ :=
    trackEvent_sent env st eventType extraData user key s hs hu hkey hd
  rw [hrun]
  refine ⟨?_, ?_, ?_⟩
  · intro h
    simp [h, transportResult]
  · intro h
    simp [h, transportResult]
  · intro v h
    simp [h, transportResult]

/-- C4 at a concrete input: a fresh page whose request is rejected. -/
theorem trackEvent_transport_contained_witness :
    (cartEnv 5000).fetch = .rejected
    ∧ (trackEvent (cartEnv 5000) freshState "page_view" {}).1 = .ok .null :=
  ⟨rfl, (trackEvent_transport_contained (cartEnv 5000) freshState "page_view" {} .null
    "page_view_/cart_anon_\x7b\x7d" emptyStore rfl rfl rfl rfl).1 rfl⟩

/-! ## C5 -/

theorem cacheKey_null (eventType pathname : String) (extraData : ExtraData) :
    cacheKey eventType pathname .null extraData
      = .ok (keyText eventType pathname "anon" (metadataText extraData)) := rfl

theorem userText_of_plain (user : JVal)
    (harr : ∀ xs, user.prop "userId" ≠ some (.arr xs))
    (hobj : ∀ kvs, user.prop "userId" = some (.obj kvs) → mapGet kvs "toString" = none) :
    ∃ u, userText user = .ok u := by
  unfold userText orDefault
  cases h : user.prop "userId" with
  | none => exact ⟨_, rfl⟩
  | some v =>
    cases v with
    | null => exact ⟨_, rfl⟩
    | bool b => cases b <;> exact ⟨_, rfl⟩
    | num n hn =>
      by_cases h0 : n = 0
      · subst h0
        exact ⟨_, rfl⟩
      · exact ⟨toString n, by simp [JVal.truthy, h0, JVal.toStr]⟩
    | str t =>
      by_cases h0 : t = ""
      · subst h0
        exact ⟨_, rfl⟩
      · exact ⟨t, by simp [JVal.truthy, h0, JVal.toStr]⟩
    | arr xs => exact absurd h (harr xs)
    | obj kvs => exact ⟨"[object Object]", by simp [JVal.truthy, JVal.toStr, hobj kvs h]⟩

theorem userText_of_own_toString (user : JVal) (kvs : Obj) (x : JVal)
    (hid : user.prop "userId" = some (.obj kvs)) (hown : mapGet kvs "toString" = some x) :
    userText user = .error .typeError := by
  simp [userText, orDefault, hid, JVal.truthy, JVal.toStr, hown]

/-- C5, refuted as stated: with an `aixel_user` text that is not JSON `trackEvent`
raises a `SyntaxError`, and with a storage whose reads fail both `trackEvent` and
`getSessionId` raise; no user is treated as absent and no id is generated. -/
theorem storage_failure_raises_counterexample :
    trackEvent (cartEnv 5000) { freshState with storage := .granted corruptUserStore }
        "page_view" {}
      = (.error .syntaxError, { freshState with storage := .granted corruptUserStore })
    ∧ trackEvent (cartEnv 5000) { freshState with storage := .denied } "page_view" {}
      = (.error .securityError, { freshState with storage := .denied })
    ∧ getSessionId (cartEnv 5000).rand .denied = .error .securityError :=
  ⟨rfl, rfl, rfl⟩

/-- C5 as amended.  A missing `aixel_user` is an absent user: on a storage that
can be read and written `trackEvent` then raises nothing, and any event posted
has `user_id` null and base metadata `user_email`, `user_name` null.  On such a
storage `getSessionId` never raises and generates and writes a fresh id when
`session_id` is missing or empty, and `trackEvent` raises nothing whenever
`aixel_user` is missing or valid JSON and the key can be built, which it can
when the user id is missing, a primitive, or an object without an own `toString`
member.  `trackEvent` raises, with nothing done, when `aixel_user` is not JSON
(`SyntaxError`) and when the user id is an object with an own `toString` member
(`TypeError`); a storage whose reads fail makes both functions raise; and where
writes fail and `session_id` is missing or empty, `getSessionId` raises, and so
does every `trackEvent` call that is not a duplicate. -/
theorem storage_absence_and_failure (env : Env) (cache : List (String × Int))
    (requests : List Event) (s : Store) (eventType : String) (extraData : ExtraData) :
    (s.aixel_user = .missing →
      (∃ v, (trackEvent env ⟨cache, .granted s, requests⟩ eventType extraData).1 = .ok v)
      ∧ ∀ e,
        (trackEvent env ⟨cache, .granted s, requests⟩ eventType extraData).2.requests
            = requests ++ [e] →
        e.user_id = .null
        ∧ e.metadata = .obj (spread [("user_email", .null), ("user_name", .null)]
            (extraData.metadata.getD [])))
    ∧ (∃ id s2, getSessionId env.rand (.granted s) = .ok (id, .granted s2) ∧ id ≠ "")
    ∧ ((s.session_id = none ∨ s.session_id = some "") →
        getSessionId env.rand (.granted s)
          = .ok (generateUUID env.rand,
              .granted { s with session_id := some (generateUUID env.rand) }))
    ∧ (∀ user key, readUser (.granted s) = .ok user →
        cacheKey eventType env.pathname user extraData = .ok key →
        ∃ v, (trackEvent env ⟨cache, .granted s, requests⟩ eventType extraData).1 = .ok v)
    ∧ (∀ user, (∀ xs, user.prop "userId" ≠ some (.arr xs)) →
        (∀ kvs, user.prop "userId" = some (.obj kvs) → mapGet kvs "toString" = none) →
        ∃ key, cacheKey eventType env.pathname user extraData = .ok key)
    ∧ (s.aixel_user = .corrupt →
        trackEvent env ⟨cache, .granted s, requests⟩ eventType extraData
          = (.error .syntaxError, ⟨cache, .granted s, requests⟩))
    ∧ (∀ user kvs x, readUser (.granted s) = .ok user →
        user.prop "userId" = some (.obj kvs) → mapGet kvs "toString" = some x →
        trackEvent env ⟨cache, .granted s, requests⟩ eventType extraData
          = (.error .typeError, ⟨cache, .granted s, requests⟩))
    ∧ trackEvent env ⟨cache, .denied, requests⟩ eventType extraData
        = (.error .securityError, ⟨cache, .denied, requests⟩)
    ∧ getSessionId env.rand .denied = .error .securityError
    ∧ ((s.session_id = none ∨ s.session_id = some "") →
        getSessionId env.rand (.writeBlocked s) = .error .quotaExceededError
        ∧ ∀ user key, readUser (.writeBlocked s) = .ok user →
            cacheKey eventType env.pathname user extraData = .ok key →
            isDuplicate (mapGet cache key) env.now = false →
            (trackEvent env ⟨cache, .writeBlocked s, requests⟩ eventType extraData).1
              = .error .quotaExceededError) := by
  have noraise : ∀ user key, readUser (.granted s) = .ok user →
      cacheKey eventType env.pathname user extraData = .ok key →
      ∃ v, (trackEvent env ⟨cache, .granted s, requests⟩ eventType extraData).1 = .ok v := by
    intro user key hu hkey
    cases hd : isDuplicate (mapGet cache key) env.now
    · obtain ⟨_, _, _, _, _, _, hrun⟩ :=
        trackEvent_sent env ⟨cache, .granted s, requests⟩ eventType extraData user key s rfl
          hu hkey hd
      exact ⟨_, by rw [hrun]⟩
    · exact ⟨_, by rw [trackEvent_skipped env ⟨cache, .granted s, requests⟩ eventType
        extraData user key hu hkey hd]⟩
  have blocked : (s.session_id = none ∨ s.session_id = some "") →
      getSessionId env.rand (.writeBlocked s) = .error .quotaExceededError := by
    intro h
    obtain ⟨sid, u, c, db⟩ := s
    rcases h with h | h
    · simp only at h
      subst h
      rfl
    · simp only at h
      subst h
      rfl
  refine ⟨?_, ?_, ?_, noraise, ?_, ?_, ?_, rfl, rfl, ?_⟩
  · intro hm
    have hu : readUser (.granted s) = .ok .null := by simp [readUser, parseStored, hm]
    refine ⟨noraise .null _ hu (cacheKey_null _ _ _), ?_⟩
    intro e he
    cases hd : isDuplicate (mapGet cache
        (keyText eventType env.pathname "anon" (metadataText extraData))) env.now
    · obtain ⟨sid, _, _, _, _, _, hrun⟩ :=
        trackEvent_sent env ⟨cache, .granted s, requests⟩ eventType extraData .null _ s rfl
          hu (cacheKey_null _ _ _) hd
      rw [hrun] at he
      have he2 := List.append_cancel_left he
      simp only [List.cons.injEq, and_true] at he2
      subst he2
      exact ⟨rfl, rfl⟩
    · rw [trackEvent_skipped env ⟨cache, .granted s, requests⟩ eventType extraData .null _
        hu (cacheKey_null _ _ _) hd] at he
      have hl := congrArg List.length he
      simp at hl
  · obtain ⟨id, s2, h, hne, _⟩ := getSessionId_granted env.rand s
    exact ⟨id, s2, h, hne⟩
  · intro h
    obtain ⟨sid, u, c, db⟩ := s
    rcases h with h | h
    · simp only at h
      subst h
      rfl
    · simp only at h
      subst h
      rfl
  · intro user harr hobj
    obtain ⟨u, hu⟩ := userText_of_plain user harr hobj
    exact ⟨keyText eventType env.pathname u (metadataText extraData), by simp [cacheKey, hu]⟩
  · intro hc
    simp [trackEvent, readUser, parseStored, hc]
  · intro user kvs x hu hid hown
    have hk : cacheKey eventType env.pathname user extraData = .error .typeError := by
      simp [cacheKey, userText_of_own_toString user kvs x hid hown]
    simp [trackEvent, hu, hk]
  · intro h
    refine ⟨blocked h, ?_⟩
    intro user key hu hkey hd
    rw [trackEvent_session_raises env ⟨cache, .writeBlocked s, requests⟩ eventType extraData
      user key .quotaExceededError hu hkey hd (blocked h)]

/-! ## C6 -/

/-- C6: on every storage state `getSessionId` returns a non-empty id, leaves that
id under `session_id`, and a second call (whatever the random draws) returns the
same id and leaves storage as it is; an id that is already stored and non-empty
is returned with storage untouched. -/
theorem getSessionId_stable (rand rand2 : Nat → Fin 16) (s : Store) :
    ∃ id s2, getSessionId rand (.granted s) = .ok (id, .granted s2)
      ∧ id ≠ "" ∧ s2.session_id = some id
      ∧ getSessionId rand2 (.granted s2) = .ok (id, .granted s2)
      ∧ (∀ id0, s.session_id = some id0 → id0 ≠ "" → id = id0 ∧ s2 = s) := by
  have again : ∀ (id : String) (t : Store), id ≠ "" → t.session_id = some id →
      getSessionId rand2 (.granted t) = .ok (id, .granted t) := by
    intro id t hne ht
    obtain ⟨sid, u, c, db⟩ := t
    simp only at ht
    subst ht
    simp [getSessionId, hne]
  obtain ⟨sid, u, c, db⟩ := s
  cases sid with
  | none =>
    refine ⟨generateUUID rand, _, rfl, generateUUID_ne_empty rand, rfl,
      again _ _ (generateUUID_ne_empty rand) rfl, ?_⟩
    intro id0 h
    simp at h
  | some id1 =>
    by_cases hid : id1 = ""
    · subst hid
      refine ⟨generateUUID rand, _, rfl, generateUUID_ne_empty rand, rfl,
        again _ _ (generateUUID_ne_empty rand) rfl, ?_⟩
      intro id0 h h0
      simp only [Option.some.injEq] at h
      exact absurd h.symm h0
    · refine ⟨id1, ⟨some id1, u, c, db⟩, by simp [getSessionId, hid], hid, rfl,
        again _ _ hid rfl, ?_⟩
      intro id0 h _
      simp only [Option.some.injEq] at h
      exact ⟨h, rfl⟩

/-! ## C7 -/

theorem member_own (db : Obj) (email : String) (entry : JVal)
    (hkey : mapGet db email = some entry) (htruthy : entry.truthy = true) :
    (member db email).truthy = true ∧ (member db email).userId = entry.prop "userId" := by
  simp [member, hkey, Member.truthy, Member.userId, htruthy]

theorem login_existing (env : LoginEnv) (s : Store) (db : Obj) (email : String)
    (name : Option String) (entry : JVal)
    (hdb : s.aixel_users_db = .json db) (hkey : mapGet db email = some entry)
    (htruthy : entry.truthy = true) :
    login env (.granted s) email name
      = .ok (User.mk email (displayName email name) (entry.prop "userId"),
          .granted { s with
            aixel_user := Stored.json
              (User.mk email (displayName email name) (entry.prop "userId")).toJson }) := by
  obtain ⟨ht, hid⟩ := member_own db email entry hkey htruthy
  simp [login, readUsersDB, hdb, ht, hid]

/-- An email that is no key of the directory but names a member every object
inherits (`constructor`) takes the returning-user branch as well: the returned
user has no `userId` and the directory is not written. -/
theorem login_inherited_name :
    login sampleLoginEnv (.granted emptyStore) "constructor" none
      = .ok (User.mk "constructor" "constructor" none,
          .granted { emptyStore with
            aixel_user := .json
              (.obj [("email", .str "constructor"), ("name", .str "constructor")]) }) :=
  rfl

/-- C7, refuted as stated: the email `ann@example.org` is a key of the directory,
its entry is `null`, and `login` allocates a new `userId` and rewrites the
directory entry instead of returning what is stored and leaving the directory
alone. -/
theorem login_null_entry_counterexample :
    nullEntryStore.aixel_users_db = .json [("ann@example.org", .null)]
    ∧ mapGet [("ann@example.org", JVal.null)] "ann@example.org" = some .null
    ∧ login sampleLoginEnv (.granted nullEntryStore) "ann@example.org" none
      = .ok (User.mk "ann@example.org" "ann" (some (.str "user_zzzzzzzzz")),
          .granted { nullEntryStore with
            aixel_users_db := .json
              [("ann@example.org",
                .obj [("userId", .str "user_zzzzzzzzz"), ("email", .str "ann@example.org"),
                      ("name", .str "ann"), ("createdAt", .str "2025-06-01T00:00:00.000Z")])],
            aixel_user := .json
              (.obj [("email", .str "ann@example.org"), ("name", .str "ann"),
                     ("userId", .str "user_zzzzzzzzz")]) }) :=
  ⟨rfl, rfl, rfl⟩

/-- C7 as amended: when the email is a key of the user directory and its entry is
truthy (every user record is; `null`, `0`, `false` and the empty string are
not), `login` returns a user whose `userId` is the one stored under that email,
whatever the name argument, and leaves the directory as it is; a second `login`
with the same email and another name returns the same `userId`. -/
theorem login_returning_user (env env2 : LoginEnv) (s : Store) (db : Obj) (email : String)
    (name name2 : Option String) (entry : JVal)
    (hdb : s.aixel_users_db = .json db) (hkey : mapGet db email = some entry)
    (htruthy : entry.truthy = true) :
    ∃ u s2, login env (.granted s) email name = .ok (u, .granted s2)
      ∧ u.userId = entry.prop "userId"
      ∧ s2.aixel_users_db = s.aixel_users_db
      ∧ ∃ u2 s3, login env2 (.granted s2) email name2 = .ok (u2, .granted s3)
          ∧ u2.userId = u.userId
          ∧ s3.aixel_users_db = s.aixel_users_db := by
  refine ⟨_, _, login_existing env s db email name entry hdb hkey htruthy, rfl, rfl, ?_⟩
  exact ⟨_, _, login_existing env2 _ db email name2 entry hdb hkey htruthy, rfl, rfl⟩

/-- C7 as amended, at a concrete input: a directory that holds a record for
`ann@example.org`. -/
theorem login_returning_user_witness :
    ∃ u s2, login sampleLoginEnv (.granted returningStore) "ann@example.org" none
        = .ok (u, .granted s2)
      ∧ u.userId = mapGet annEntry "userId"
      ∧ s2.aixel_users_db = returningStore.aixel_users_db
      ∧ ∃ u2 s3, login sampleLoginEnv (.granted s2) "ann@example.org" (some "Annie")
            = .ok (u2, .granted s3)
          ∧ u2.userId = u.userId
          ∧ s3.aixel_users_db = returningStore.aixel_users_db :=
  login_returning_user sampleLoginEnv sampleLoginEnv returningStore
    [("ann@example.org", .obj annEntry)] "ann@example.org" none (some "Annie") (.obj annEntry)
    rfl rfl rfl

/-! ## C9 -/

/-- C9, refuted as stated: a user is persisted, its `userId` is the empty string,
and the event `trackEvent` posts carries `user_id` null, not that `userId`. -/
theorem event_user_id_counterexample :
    emptyIdUser.prop "userId" = some (.str "")
    ∧ (trackEvent (cartEnv 5000) emptyIdState "page_view" {}).2.requests.map Event.user_id
        = [.null]
    ∧ JVal.null ≠ JVal.str "" :=
  ⟨rfl, rfl, by simp⟩

/-- C9 as amended: whenever storage holds valid JSON and the call is not a
duplicate, the event `trackEvent` posts has a non-empty string `session_id`,
equal to the id that storage holds afterwards, and a string `timestamp`; its
`user_id` is null when no user is persisted, whatever the options bag carries,
and otherwise is the persisted user's `userId` when that is truthy and null when
it is missing or falsy (such as the empty string). -/
theorem event_identity_fields (env : Env) (st : State) (eventType : String)
    (extraData : ExtraData) (user : JVal) (key : String) (store : Store)
    (hs : st.storage = .granted store)
    (hu : readUser st.storage = .ok user)
    (hkey : cacheKey eventType env.pathname user extraData = .ok key)
    (hd : isDuplicate (mapGet st.eventCache key) env.now = false) :
    ∃ e sid s2, (trackEvent env st eventType extraData).2.requests = st.requests ++ [e]
      ∧ (trackEvent env st eventType extraData).2.storage = .granted s2
      ∧ e.session_id = .str sid ∧ sid ≠ "" ∧ s2.session_id = some sid
      ∧ e.timestamp = .str env.isoTime
      ∧ (user = .null → e.user_id = .null)
      ∧ (∀ s, st.storage = .granted s → s.aixel_user = .missing → e.user_id = .null)
      ∧ e.user_id = (match user.prop "userId" with
          | some v => if v.truthy then v else .null
          | none => .null) := by
  obtain ⟨sid, s2, _, hne, hsid, _, hrun⟩ :=
    trackEvent_sent env st eventType extraData user key store hs hu hkey hd
  refine ⟨buildEvent env user sid eventType extraData, sid, s2, by rw [hrun], by rw [hrun],
    rfl, hne, hsid, rfl, ?_, ?_, ?_⟩
  · intro h
    subst h
    rfl
  · intro s hs2 hm
    rw [hs2] at hu
    simp only [readUser, parseStored, hm, Except.ok.injEq] at hu
    subst hu
    rfl
  · simp only [buildEvent, orDefault]

/-- C9 as amended, at a concrete input: an anonymous call on a fresh page. -/
theorem event_identity_fields_witness :
    ∃ e sid s2, (trackEvent (cartEnv 5000) freshState "page_view" { user_id := some (.str "u") }
          ).2.requests = freshState.requests ++ [e]
      ∧ (trackEvent (cartEnv 5000) freshState "page_view" { user_id := some (.str "u") }
          ).2.storage = .granted s2
      ∧ e.session_id = .str sid ∧ sid ≠ "" ∧ s2.session_id = some sid
      ∧ e.timestamp = .str (cartEnv 5000).isoTime
      ∧ e.user_id = .null := by
  obtain ⟨e, sid, s2, h1, h2, h3, h4, h5, h6, h7, _, _⟩ :=
    event_identity_fields (cartEnv 5000) freshState "page_view" { user_id := some (.str "u") }
      .null "page_view_/cart_anon_\x7b\x7d" emptyStore rfl rfl rfl rfl
  exact ⟨e, sid, s2, h1, h2, h3, h4, h5, h6, h7 rfl⟩

/-! ## C10 -/

/-- C10, refuted as stated: on the URL `/cart?utm_source=` the parameter
`utm_source` is present with the empty value, and the posted event carries the
default `"direct"`, not that value. -/
theorem utm_empty_value_counterexample :
    searchGet emptySourceEnv.query "utm_source" = some (.str "")
    ∧ (trackEvent emptySourceEnv freshState "page_view" {}).2.requests.map Event.utm_source
        = [.str "direct"]
    ∧ JVal.str "direct" ≠ JVal.str "" :=
  ⟨rfl, rfl, by simp⟩

/-- C10 as amended: in the event `trackEvent` posts, each of `utm_source`,
`utm_medium`, `utm_campaign` is the (first) value of the query parameter of that
name when the parameter is present with a non-empty value, and the default
`"direct"` / `"none"` / `"none"` when it is absent or empty; each field depends on
its own parameter only, and a URL without query parameters gives all three
defaults. -/
theorem utm_defaults (env : Env) (st : State) (eventType : String)
    (extraData : ExtraData) (user : JVal) (key : String) (store : Store)
    (hs : st.storage = .granted store)
    (hu : readUser st.storage = .ok user)
    (hkey : cacheKey eventType env.pathname user extraData = .ok key)
    (hd : isDuplicate (mapGet st.eventCache key) env.now = false) :
    ∃ e, (trackEvent env st eventType extraData).2.requests = st.requests ++ [e]
      ∧ e.utm_source = (match mapGet env.query "utm_source" with
          | some v => if v = "" then .str "direct" else .str v
          | none => .str "direct")
      ∧ e.utm_medium = (match mapGet env.query "utm_medium" with
          | some v => if v = "" then .str "none" else .str v
          | none => .str "none")
      ∧ e.utm_campaign = (match mapGet env.query "utm_campaign" with
          | some v => if v = "" then .str "none" else .str v
          | none => .str "none")
      ∧ (env.query = [] → e.utm_source = .str "direct" ∧ e.utm_medium = .str "none"
          ∧ e.utm_campaign = .str "none") := by
  have field : ∀ (name dflt : String),
      orDefault (searchGet env.query name) (.str dflt)
        = (match mapGet env.query name with
          | some v => if v = "" then .str dflt else .str v
          | none => .str dflt) := by
    intro name dflt
    unfold searchGet orDefault
    cases mapGet env.query name with
    | none => rfl
    | some v =>
      by_cases hv : v = ""
      · simp [hv, JVal.truthy]
      · simp [hv, JVal.truthy]
  obtain ⟨sid, s2, _, _, _, _, hrun⟩ :=
    trackEvent_sent env st eventType extraData user key store hs hu hkey hd
  refine ⟨buildEvent env user sid eventType extraData, by rw [hrun], field _ _, field _ _,
    field _ _, ?_⟩
  intro hq
  simp [buildEvent, hq, searchGet, mapGet, orDefault]

/-- C10 as amended, at a concrete input: a URL with a source and a campaign and no
medium. -/
theorem utm_defaults_witness :
    ∃ e, (trackEvent adEnv freshState "page_view" {}).2.requests = freshState.requests ++ [e]
      ∧ e.utm_source = .str "dashboard"
      ∧ e.utm_medium = .str "none"
      ∧ e.utm_campaign = .str "spring" := by
  obtain ⟨e, h1, h2, h3, h4, _⟩ := utm_defaults adEnv freshState "page_view" {} .null
    "page_view_/cart_anon_\x7b\x7d" emptyStore rfl rfl rfl rfl
  exact ⟨e, h1, h2, h3, h4⟩

/-! ## C11 -/

theorem startsWith_iff (hay needle : List Char) :
    startsWith hay needle = true ↔ ∃ post, hay = needle ++ post := by
  induction needle generalizing hay with
  | nil => cases hay <;> simp [startsWith]
  | cons n ns ih =>
    cases hay with
    | nil => simp [startsWith]
    | cons h hs =>
      simp only [startsWith, Bool.and_eq_true, beq_iff_eq, ih, List.cons_append,
        List.cons.injEq]
      constructor
      · rintro ⟨rfl, post, rfl⟩
        exact ⟨post, rfl, rfl⟩
      · rintro ⟨post, rfl, rfl⟩
        exact ⟨rfl, post, rfl⟩

theorem occursIn_iff (needle hay : List Char) :
    occursIn needle hay = true ↔ ∃ pre post, hay = pre ++ needle ++ post := by
  induction hay with
  | nil =>
    simp only [occursIn, startsWith_iff]
    constructor
    · rintro ⟨post, h⟩
      exact ⟨[], post, by simpa using h⟩
    · rintro ⟨pre, post, h⟩
      have h2 := congrArg List.length h
      simp only [List.length_nil, List.length_append] at h2
      have hn : needle = [] := List.length_eq_zero.mp (by omega)
      exact ⟨[], by simp [hn]⟩
  | cons h hs ih =>
    simp only [occursIn, Bool.or_eq_true, startsWith_iff, ih]
    constructor
    · rintro (⟨post, hp⟩ | ⟨pre, post, hp⟩)
      · exact ⟨[], post, by simpa using hp⟩
      · exact ⟨h :: pre, post, by simp [hp]⟩
    · rintro ⟨pre, post, hp⟩
      cases pre with
      | nil => exact Or.inl ⟨post, by simpa using hp⟩
      | cons p ps =>
        simp only [List.cons_append, List.cons.injEq] at hp
        exact Or.inr ⟨ps, post, hp.2⟩

theorem occursIn_lowered_iff (ua needle : String) (lowered : List Char)
    (h : needle.toList.map Char.toLower = lowered) :
    occursIn lowered (ua.toList.map Char.toLower) = true ↔ containsIgnoringCase ua needle := by
  rw [occursIn_iff]
  unfold containsIgnoringCase
  rw [h]
  constructor
  · rintro ⟨pre, post, hp⟩
    obtain ⟨l1, l2, hl, h1, _⟩ := List.map_eq_append_iff.mp hp
    obtain ⟨a, b, hab, _, hb⟩ := List.map_eq_append_iff.mp h1
    exact ⟨a, b, l2, by rw [hl, hab], hb⟩
  · rintro ⟨pre, mid, post, hp, hm⟩
    exact ⟨pre.map Char.toLower, post.map Char.toLower, by rw [hp]; simp [hm]⟩

theorem mobilePattern_iff (ua : String) :
    mobilePattern ua = true ↔
      (containsIgnoringCase ua "Mobile" ∨ containsIgnoringCase ua "Android"
        ∨ containsIgnoringCase ua "iPhone") := by
  unfold mobilePattern
  simp only [Bool.or_eq_true, or_assoc]
  rw [occursIn_lowered_iff ua "Mobile" _ (by decide),
    occursIn_lowered_iff ua "Android" _ (by decide),
    occursIn_lowered_iff ua "iPhone" _ (by decide)]

/-- C11: the `device` member of the event `trackEvent` posts is `"mobile"` exactly
when the user agent contains one of `Mobile`, `Android`, `iPhone` without regard
to case, and `"desktop"` otherwise; the legacy implementation computes the same
value from the user agent, and writes it as `device` whenever its options object
has no `device` member of its own. -/
theorem device_classification (env : Env) (st : State) (eventType : String)
    (extraData : ExtraData) (user : JVal) (key : String) (store : Store)
    (hs : st.storage = .granted store)
    (hu : readUser st.storage = .ok user)
    (hkey : cacheKey eventType env.pathname user extraData = .ok key)
    (hd : isDuplicate (mapGet st.eventCache key) env.now = false) :
    ∃ e, (trackEvent env st eventType extraData).2.requests = st.requests ++ [e]
      ∧ (e.device = .str "mobile" ↔
          (containsIgnoringCase env.userAgent "Mobile"
            ∨ containsIgnoringCase env.userAgent "Android"
            ∨ containsIgnoringCase env.userAgent "iPhone"))
      ∧ (e.device = .str "desktop" ↔
          ¬ (containsIgnoringCase env.userAgent "Mobile"
            ∨ containsIgnoringCase env.userAgent "Android"
            ∨ containsIgnoringCase env.userAgent "iPhone"))
      ∧ legacyDevice env.userAgent = e.device
      ∧ (∀ (sessionId : String) (legacyExtra : Obj), mapGet legacyExtra "device" = none →
          mapGet (legacyEvent env user sessionId eventType legacyExtra) "device"
            = some e.device) := by
  obtain ⟨sid, s2, _, _, _, _, hrun⟩ :=
    trackEvent_sent env st eventType extraData user key store hs hu hkey hd
  refine ⟨buildEvent env user sid eventType extraData, by rw [hrun], ?_, ?_, rfl, ?_⟩
  · rw [← mobilePattern_iff]
    cases hm : mobilePattern env.userAgent <;> simp [buildEvent, hm]
  · rw [← mobilePattern_iff]
    cases hm : mobilePattern env.userAgent <;> simp [buildEvent, hm]
  · intro sessionId legacyExtra hno
    unfold legacyEvent
    rw [spread_get_of_absent _ legacyExtra "device" hno]
    rfl

/-- C11 at concrete inputs: an iPhone user agent is classified `"mobile"`, a
Windows one `"desktop"`. -/
theorem device_classification_witness :
    (∃ e, (trackEvent phoneEnv freshState "page_view" {}).2.requests
        = freshState.requests ++ [e] ∧ e.device = .str "mobile")
    ∧ (∃ e, (trackEvent (cartEnv 5000) freshState "page_view" {}).2.requests
        = freshState.requests ++ [e] ∧ e.device = .str "desktop") := by
  obtain ⟨e, h1, _, _, h4, _⟩ := device_classification phoneEnv freshState "page_view" {} .null
    "page_view_/cart_anon_\x7b\x7d" emptyStore rfl rfl rfl rfl
  obtain ⟨e2, k1, _, _, k4, _⟩ :=
    device_classification (cartEnv 5000) freshState "page_view" {} .null
      "page_view_/cart_anon_\x7b\x7d" emptyStore rfl rfl rfl rfl
  exact ⟨⟨e, h1, h4.symm.trans rfl⟩, ⟨e2, k1, k4.symm.trans rfl⟩⟩

/-! ## C12 -/

theorem mem_mapSet_of_mem {β : Type} (l : List (String × β)) (key : String) (v : β)
    (k : String) (t : β) (hmem : (k, t) ∈ l) (hne : k ≠ key) : (k, t) ∈ mapSet l key v := by
  induction l with
  | nil => simp at hmem
  | cons hd tl ih =>
    obtain ⟨k0, x⟩ := hd
    by_cases h : k0 = key
    · subst h
      simp only [mapSet, if_true, List.mem_cons, Prod.mk.injEq] at hmem ⊢
      rcases hmem with ⟨hk, _⟩ | hmem
      · exact absurd hk hne
      · exact Or.inr hmem
    · simp only [mapSet, h, if_false, List.mem_cons] at hmem ⊢
      rcases hmem with hmem | hmem
      · exact Or.inl hmem
      · exact Or.inr (ih hmem)

theorem mem_of_mem_mapSet {β : Type} (l : List (String × β)) (key : String) (v : β)
    (k : String) (t : β) (hmem : (k, t) ∈ mapSet l key v) :
    (k, t) ∈ l ∨ (k = key ∧ t = v) := by
  induction l with
  | nil => simpa [mapSet] using hmem
  | cons hd tl ih =>
    obtain ⟨k0, x⟩ := hd
    by_cases h : k0 = key
    · subst h
      simp only [mapSet, if_true, List.mem_cons, Prod.mk.injEq] at hmem ⊢
      rcases hmem with ⟨hk, ht⟩ | hmem
      · exact Or.inr ⟨hk, ht⟩
      · exact Or.inl (Or.inr hmem)
    · simp only [mapSet, h, if_false, List.mem_cons] at hmem ⊢
      rcases hmem with hmem | hmem
      · exact Or.inl (Or.inl hmem)
      · rcases ih hmem with h1 | h1
        · exact Or.inl (Or.inr h1)
        · exact Or.inr h1

theorem mem_pruneCache (now : Int) (cache : List (String × Int)) (k : String) (t : Int) :
    (k, t) ∈ pruneCache now cache ↔ (k, t) ∈ cache ∧ ¬ (now - t > DEDUPE_WINDOW_MS) := by
  simp [pruneCache, List.mem_filter]

/-- C12, refuted as stated: a call at clock reading 10000 that is skipped as a
duplicate issues no request and leaves in the cache an entry recorded at 1000,
older than the window.  The same happens from a fresh page with a clock that
only moves forward: calls on `/products` at 1000 and on `/cart` at 2500 are
sent, a call on `/cart` at 4400 is skipped, and the entry recorded at 1000,
3400 ms old, is still in the cache. -/
theorem skipped_call_keeps_stale_entry_counterexample :
    (trackEvent (cartEnv 10000) staleState "page_view" {}).2.requests.length = 0
    ∧ ("page_view_/products_anon_\x7b\x7d", (1000 : Int))
        ∈ (trackEvent (cartEnv 10000) staleState "page_view" {}).2.eventCache
    ∧ (10000 : Int) - 1000 > DEDUPE_WINDOW_MS
    ∧ (trackEvent (cartEnv 2500)
        (trackEvent { cartEnv 1000 with pathname := "/products" } freshState "page_view" {}).2
        "page_view" {}).2.requests.length = 2
    ∧ (trackEvent (cartEnv 4400)
        (trackEvent (cartEnv 2500)
          (trackEvent { cartEnv 1000 with pathname := "/products" } freshState
            "page_view" {}).2
          "page_view" {}).2
        "page_view" {}).2.requests.length = 2
    ∧ ("page_view_/products_anon_\x7b\x7d", (1000 : Int))
        ∈ (trackEvent (cartEnv 4400)
            (trackEvent (cartEnv 2500)
              (trackEvent { cartEnv 1000 with pathname := "/products" } freshState
                "page_view" {}).2
              "page_view" {}).2
            "page_view" {}).2.eventCache
    ∧ (4400 : Int) - 1000 > DEDUPE_WINDOW_MS := by
  decide

/-- C12 as amended: after a call at time `now` that is sent, the cache holds no
entry with `now - timestamp > 2000`, every entry under another key that is not
older than the window is retained, the call's own key holds `now`, and nothing
else was added; a call skipped as a duplicate leaves the cache as it was. -/
theorem cache_pruned_when_sent (env : Env) (st : State) (eventType : String)
    (extraData : ExtraData) (user : JVal) (key : String) (store : Store)
    (hs : st.storage = .granted store)
    (hu : readUser st.storage = .ok user)
    (hkey : cacheKey eventType env.pathname user extraData = .ok key) :
    (isDuplicate (mapGet st.eventCache key) env.now = false →
      (∀ k t, (k, t) ∈ (trackEvent env st eventType extraData).2.eventCache →
        ¬ (env.now - t > DEDUPE_WINDOW_MS))
      ∧ (∀ k t, (k, t) ∈ st.eventCache → k ≠ key →
          ¬ (env.now - t > DEDUPE_WINDOW_MS) →
          (k, t) ∈ (trackEvent env st eventType extraData).2.eventCache)
      ∧ mapGet (trackEvent env st eventType extraData).2.eventCache key = some env.now
      ∧ (∀ k t, (k, t) ∈ (trackEvent env st eventType extraData).2.eventCache →
          (k, t) ∈ st.eventCache ∨ (k = key ∧ t = env.now)))
    ∧ (isDuplicate (mapGet st.eventCache key) env.now = true →
      (trackEvent env st eventType extraData).2.eventCache = st.eventCache) := by
  constructor
  · intro hd
    obtain ⟨sid, s2, _, _, _, _, hrun⟩ :=
      trackEvent_sent env st eventType extraData user key store hs hu hkey hd
    rw [hrun]
    refine ⟨?_, ?_, pruneCache_keeps_now env.now st.eventCache _, ?_⟩
    · intro k t hmem
      exact ((mem_pruneCache env.now _ k t).mp hmem).2
    · intro k t hmem hne hfresh
      exact (mem_pruneCache env.now _ k t).mpr
        ⟨mem_mapSet_of_mem st.eventCache _ env.now k t hmem hne, hfresh⟩
    · intro k t hmem
      exact mem_of_mem_mapSet st.eventCache _ env.now k t
        ((mem_pruneCache env.now _ k t).mp hmem).1
  · intro hd
    rw [trackEvent_skipped env st eventType extraData user key hu hkey hd]

/-- C12 as amended, at a concrete input: a call on `/checkout` at clock reading
10000 is sent, drops the entry recorded at 1000 and keeps the one recorded at
9500. -/
theorem cache_pruned_when_sent_witness :
    (trackEvent { cartEnv 10000 with pathname := "/checkout" } staleState "page_view" {}
        ).2.eventCache
      = [("page_view_/cart_anon_\x7b\x7d", 9500),
         ("page_view_/checkout_anon_\x7b\x7d", 10000)]
    ∧ ∀ k t, (k, t) ∈ (trackEvent { cartEnv 10000 with pathname := "/checkout" } staleState
          "page_view" {}).2.eventCache →
        ¬ ((10000 : Int) - t > DEDUPE_WINDOW_MS) :=
  ⟨by decide,
    ((cache_pruned_when_sent { cartEnv 10000 with pathname := "/checkout" } staleState
      "page_view" {} .null "page_view_/checkout_anon_\x7b\x7d" emptyStore rfl rfl rfl).1
      (by decide)).1⟩

/-! ## C15 -/

theorem filterNotIndex_of_lt (index : Int) (k : Nat) (xs : List JVal)
    (h : index < k) : filterNotIndex index k xs = xs := by
  induction xs generalizing k with
  | nil => rfl
  | cons x xs ih =>
    have hne : (k : Int) ≠ index := by omega
    simp only [filterNotIndex, ne_eq, hne, not_false_eq_true, if_true]
    rw [ih (k + 1) (by push_cast; omega)]

theorem filterNotIndex_of_ge (index : Int) (k : Nat) (xs : List JVal)
    (h : (k : Int) + xs.length ≤ index) : filterNotIndex index k xs = xs := by
  induction xs generalizing k with
  | nil => rfl
  | cons x xs ih =>
    simp only [List.length_cons, Nat.cast_add, Nat.cast_one] at h
    have hne : (k : Int) ≠ index := by omega
    simp only [filterNotIndex, ne_eq, hne, not_false_eq_true, if_true]
    rw [ih (k + 1) (by push_cast; omega)]

theorem filterNotIndex_at (k i : Nat) (xs : List JVal) (h : i < xs.length) :
    filterNotIndex ((k + i : Nat) : Int) k xs = xs.take i ++ xs.drop (i + 1) := by
  induction xs generalizing k i with
  | nil => simp at h
  | cons x xs ih =>
    cases i with
    | zero =>
      simp only [Nat.add_zero, filterNotIndex, ne_eq, not_true_eq_false, if_false,
        List.take_zero, List.nil_append, Nat.zero_add, List.drop_succ_cons, List.drop_zero]
      exact filterNotIndex_of_lt _ _ _ (by push_cast; omega)
    | succ j =>
      have hne : (k : Int) ≠ ((k + (j + 1) : Nat) : Int) := by push_cast; omega
      simp only [filterNotIndex, ne_eq, hne, not_false_eq_true, if_true, List.take_succ_cons,
        List.cons_append, List.drop_succ_cons, List.cons.injEq, true_and]
      have hidx : k + (j + 1) = (k + 1) + j := by omega
      rw [hidx]
      exact ih (k + 1) j (by simpa using h)

/-- C15: `addToCart` appends the product as the last entry and leaves the earlier
entries as they are; `removeFromCart` with an index inside the cart drops exactly
the entry at that position and keeps the others in order, and undoes an
`addToCart` when given the index of the appended product; with an index outside
the cart it changes nothing; `clearCart` leaves the empty cart. -/
theorem cart_mutations (cart : List JVal) (p : JVal) :
    addToCart cart p = cart ++ [p]
    ∧ (addToCart cart p).length = cart.length + 1
    ∧ (∀ i, i < cart.length → (addToCart cart p)[i]? = cart[i]?)
    ∧ (addToCart cart p)[cart.length]? = some p
    ∧ (∀ i : Nat, i < cart.length →
        removeFromCart cart (i : Int) = cart.take i ++ cart.drop (i + 1)
        ∧ (removeFromCart cart (i : Int)).length = cart.length - 1)
    ∧ removeFromCart (addToCart cart p) (cart.length : Int) = cart
    ∧ (∀ i : Int, i < 0 ∨ (cart.length : Int) ≤ i → removeFromCart cart i = cart)
    ∧ ∀ storage, (clearCart storage).1 = [] := by
  have hrem : ∀ (xs : List JVal) (i : Nat), i < xs.length →
      removeFromCart xs (i : Int) = xs.take i ++ xs.drop (i + 1) := by
    intro xs i hi
    have := filterNotIndex_at 0 i xs hi
    simpa [removeFromCart] using this
  refine ⟨rfl, by simp [addToCart], ?_, by simp [addToCart], ?_, ?_, ?_, fun _ => rfl⟩
  · intro i hi
    simp [addToCart, List.getElem?_append_left hi]
  · intro i hi
    refine ⟨hrem cart i hi, ?_⟩
    rw [hrem cart i hi]
    simp only [List.length_append, List.length_take, List.length_drop]
    omega
  · rw [hrem (addToCart cart p) cart.length (by simp [addToCart])]
    simp [addToCart]
  · intro i hi
    rcases hi with hi | hi
    · exact filterNotIndex_of_lt i 0 cart (by simpa using hi)
    · exact filterNotIndex_of_ge i 0 cart (by simpa using hi)

/-! ## C13 -/

theorem generateUUID_chars (rand : Nat → Fin 16) :
    (generateUUID rand).toList
      = [hexDigit (rand 0).val, hexDigit (rand 1).val, hexDigit (rand 2).val, hexDigit (rand 3).val,
       hexDigit (rand 4).val, hexDigit (rand 5).val, hexDigit (rand 6).val, hexDigit (rand 7).val,
       '-', hexDigit (rand 8).val, hexDigit (rand 9).val, hexDigit (rand 10).val,
       hexDigit (rand 11).val, '-', '4', hexDigit (rand 12).val, hexDigit (rand 13).val,
       hexDigit (rand 14).val, '-', hexDigit (((rand 15).val &&& 3) ||| 8), hexDigit (rand 16).val,
       hexDigit (rand 17).val, hexDigit (rand 18).val, '-', hexDigit (rand 19).val,
       hexDigit (rand 20).val, hexDigit (rand 21).val, hexDigit (rand 22).val, hexDigit (rand 23).val,
       hexDigit (rand 24).val, hexDigit (rand 25).val, hexDigit (rand 26).val, hexDigit (rand 27).val,
       hexDigit (rand 28).val, hexDigit (rand 29).val, hexDigit (rand 30).val] := by
  rfl

theorem hexDigit_lower (r : Fin 16) : isLowerHex (hexDigit r.val) := by
  unfold isLowerHex
  revert r
  decide

theorem hexDigit_injective (a b : Fin 16) (h : hexDigit a.val = hexDigit b.val) : a = b := by
  revert a b
  decide

theorem variant_digit_eq_iff (a b : Fin 16) :
    hexDigit ((a.val &&& 3) ||| 8) = hexDigit ((b.val &&& 3) ||| 8) ↔ a.val % 4 = b.val % 4 := by
  revert a b
  decide

theorem variant_digit_mem (a : Fin 16) :
    hexDigit ((a.val &&& 3) ||| 8) ∈ ['8', '9', 'a', 'b'] := by
  revert a
  decide

/-- C13: for every sequence of draws `generateUUID` returns 36 characters, with
`-` at indices 8, 13, 18, 23, `4` at index 14, one of `8 9 a b` at index 19 (set by
the low two bits of draw 15), and at each of the other 30 positions the lowercase
hexadecimal digit of a draw of its own; two ids are equal exactly when those 30
draws agree and draw 15 agrees in its low two bits (122 bits in all). -/
theorem generateUUID_shape (rand : Nat → Fin 16) :
    (generateUUID rand).length = 36
    ∧ (∀ i ∈ [8, 13, 18, 23], (generateUUID rand).toList[i]? = some '-')
    ∧ (generateUUID rand).toList[14]? = some '4'
    ∧ (generateUUID rand).toList[19]? = some (hexDigit (((rand 15).val &&& 3) ||| 8))
    ∧ hexDigit (((rand 15).val &&& 3) ||| 8) ∈ ['8', '9', 'a', 'b']
    ∧ (∀ pd ∈ hexPositions,
        (generateUUID rand).toList[pd.1]? = some (hexDigit (rand pd.2).val)
        ∧ isLowerHex (hexDigit (rand pd.2).val))
    ∧ hexPositions.length = 30
    ∧ (hexPositions.map Prod.fst).Nodup ∧ (hexPositions.map Prod.snd).Nodup
    ∧ (∀ rand2 : Nat → Fin 16, generateUUID rand = generateUUID rand2 ↔
        (∀ j, j < 31 → j ≠ 15 → rand j = rand2 j)
        ∧ (rand 15).val % 4 = (rand2 15).val % 4) := by
  refine ⟨generateUUID_length rand, ?_, ?_, ?_, variant_digit_mem _, ?_, by decide, by decide,
    by decide, ?_⟩
  · intro i hi
    rw [generateUUID_chars]
    simp only [List.mem_cons, List.mem_singleton, List.not_mem_nil, or_false] at hi
    rcases hi with rfl | rfl | rfl | rfl <;> rfl
  · rw [generateUUID_chars]
    rfl
  · rw [generateUUID_chars]
    rfl
  · intro pd hpd
    refine ⟨?_, hexDigit_lower _⟩
    rw [generateUUID_chars]
    simp only [hexPositions, List.mem_cons, List.mem_singleton, List.not_mem_nil,
      or_false] at hpd
    rcases hpd with rfl | rfl | rfl | rfl | rfl | rfl | rfl | rfl | rfl | rfl | rfl | rfl
      | rfl | rfl | rfl | rfl | rfl | rfl | rfl | rfl | rfl | rfl | rfl | rfl | rfl | rfl
      | rfl | rfl | rfl | rfl <;> rfl
  · intro rand2
    constructor
    · intro heq
      have hl := congrArg String.toList heq
      rw [generateUUID_chars, generateUUID_chars] at hl
      simp only [List.cons.injEq, and_true, true_and] at hl
      refine ⟨?_, (variant_digit_eq_iff _ _).mp (by tauto)⟩
      intro j hj hne
      apply hexDigit_injective
      interval_cases j <;> first | exact absurd rfl hne | tauto
    · rintro ⟨hd, hv⟩
      have hvar := (variant_digit_eq_iff (rand 15) (rand2 15)).mpr hv
      have hlist : (generateUUID rand).toList = (generateUUID rand2).toList := by
        rw [generateUUID_chars, generateUUID_chars, hvar]
        rw [hd 0 (by decide) (by decide), hd 1 (by decide) (by decide), hd 2 (by decide) (by decide),
          hd 3 (by decide) (by decide), hd 4 (by decide) (by decide), hd 5 (by decide) (by decide),
          hd 6 (by decide) (by decide), hd 7 (by decide) (by decide), hd 8 (by decide) (by decide),
          hd 9 (by decide) (by decide), hd 10 (by decide) (by decide), hd 11 (by decide) (by decide),
          hd 12 (by decide) (by decide), hd 13 (by decide) (by decide), hd 14 (by decide) (by decide),
          hd 16 (by decide) (by decide), hd 17 (by decide) (by decide), hd 18 (by decide) (by decide),
          hd 19 (by decide) (by decide), hd 20 (by decide) (by decide), hd 21 (by decide) (by decide),
          hd 22 (by decide) (by decide), hd 23 (by decide) (by decide), hd 24 (by decide) (by decide),
          hd 25 (by decide) (by decide), hd 26 (by decide) (by decide), hd 27 (by decide) (by decide),
          hd 28 (by decide) (by decide), hd 29 (by decide) (by decide), hd 30 (by decide) (by decide)]
      exact String.ext hlist

/-! ## C14 -/

theorem split_at_first (c : Char) (a1 a2 x1 x2 : List Char) (h1 : c ∉ a1) (h2 : c ∉ a2)
    (h : a1 ++ c :: x1 = a2 ++ c :: x2) : a1 = a2 ∧ x1 = x2 := by
  induction a1 generalizing a2 with
  | nil =>
    cases a2 with
    | nil => simpa using h
    | cons b bs =>
      simp only [List.nil_append, List.cons_append, List.cons.injEq] at h
      simp only [List.mem_cons, not_or] at h2
      exact absurd h.1 h2.1
  | cons a as ih =>
    cases a2 with
    | nil =>
      simp only [List.nil_append, List.cons_append, List.cons.injEq] at h
      simp only [List.mem_cons, not_or] at h1
      exact absurd h.1.symm h1.1
    | cons b bs =>
      simp only [List.cons_append, List.cons.injEq] at h
      simp only [List.mem_cons, not_or] at h1 h2
      obtain ⟨hs, hx⟩ := ih bs h1.2 h2.2 h.2
      exact ⟨by rw [h.1, hs], hx⟩

theorem not_mem_append_singleton (c d : Char) (l : List Char) (h : c ∉ l) (hne : c ≠ d) :
    c ∉ l ++ [d] := by
  intro hm
  rcases List.mem_append.mp hm with hm | hm
  · exact h hm
  · exact hne (List.mem_singleton.mp hm)

theorem keyText_toList (eventType pathname user metadata : String) :
    (keyText eventType pathname user metadata).toList
      = eventType.toList ++ '_' :: (pathname.toList ++ '_' :: (user.toList
          ++ '_' :: metadata.toList)) := by
  simp [keyText, String.data_append]

theorem metadataText_head (extraData : ExtraData) :
    ∃ r, (metadataText extraData).toList = Char.ofNat 123 :: r := by
  refine ⟨(JVal.stringifyProps (extraData.metadata.getD [])).toList ++ [Char.ofNat 125], ?_⟩
  simp only [metadataText, JVal.stringify, String.toList, String.data_append]
  rfl

/-- Where the separators cannot be mistaken (event types without `/`, page paths
that start with `/` and hold no `_`, user texts without an opening brace), two
keys are equal exactly when the four components are. -/
theorem keyText_eq_iff_of_separable (e1 e2 p1 p2 u1 u2 : String)
    (x1 x2 : ExtraData) (r1 r2 : List Char)
    (he1 : '/' ∉ e1.toList) (he2 : '/' ∉ e2.toList)
    (hp1 : p1.toList = '/' :: r1) (hp2 : p2.toList = '/' :: r2)
    (hr1 : '_' ∉ r1) (hr2 : '_' ∉ r2)
    (hu1 : Char.ofNat 123 ∉ u1.toList)
    (hu2 : Char.ofNat 123 ∉ u2.toList) :
    keyText e1 p1 u1 (metadataText x1) = keyText e2 p2 u2 (metadataText x2) ↔
      e1 = e2 ∧ p1 = p2 ∧ u1 = u2 ∧ metadataText x1 = metadataText x2 := by
  constructor
  · intro h
    have hl := congrArg String.toList h
    rw [keyText_toList, keyText_toList, hp1, hp2] at hl
    obtain ⟨j1, hj1⟩ := metadataText_head x1
    obtain ⟨j2, hj2⟩ := metadataText_head x2
    rw [hj1, hj2] at hl
    have hslash : ('/' : Char) ≠ '_' := by decide
    have hbrace : Char.ofNat 123 ≠ ('_' : Char) := by decide
    have hA : (e1.toList ++ ['_']) ++ '/' :: (r1 ++ '_' :: (u1.toList
          ++ '_' :: Char.ofNat 123 :: j1))
        = (e2.toList ++ ['_']) ++ '/' :: (r2 ++ '_' :: (u2.toList
          ++ '_' :: Char.ofNat 123 :: j2)) := by
      simpa using hl
    obtain ⟨hE, hrest⟩ := split_at_first '/' _ _ _ _
      (not_mem_append_singleton _ _ _ he1 hslash) (not_mem_append_singleton _ _ _ he2 hslash) hA
    obtain ⟨hR, hrest2⟩ := split_at_first '_' _ _ _ _ hr1 hr2 hrest
    have hB : (u1.toList ++ ['_']) ++ Char.ofNat 123 :: j1
        = (u2.toList ++ ['_']) ++ Char.ofNat 123 :: j2 := by
      simpa using hrest2
    obtain ⟨hU, hJ⟩ := split_at_first (Char.ofNat 123) _ _ _ _
      (not_mem_append_singleton _ _ _ hu1 hbrace) (not_mem_append_singleton _ _ _ hu2 hbrace) hB
    refine ⟨String.ext (List.append_cancel_right hE), String.ext ?_,
      String.ext (List.append_cancel_right hU), String.ext ?_⟩
    · show p1.toList = p2.toList
      rw [hp1, hp2, hR]
    · show (metadataText x1).toList = (metadataText x2).toList
      rw [hj1, hj2, hJ]
  · rintro ⟨rfl, rfl, rfl, hx⟩
    rw [hx]

/-- C14, evaluated where the code departs from it: event type `a_/b` on path `/c`
and event type `a` on path `/b_/c` differ in two components and get the same
key, so the second call, 100 ms after the first, is suppressed by it: two
different events, one request. -/
theorem cacheKey_separator_collision :
    cacheKey "a_/b" "/c" .null {} = cacheKey "a" "/b_/c" .null {}
    ∧ cacheKey "a_/b" "/c" .null {} = .ok "a_/b_/c_anon_\x7b\x7d"
    ∧ "a_/b" ≠ "a" ∧ "/c" ≠ "/b_/c"
    ∧ (trackEvent { cartEnv 5000 with pathname := "/c" } freshState "a_/b" {}
        ).2.requests.length = 1
    ∧ (trackEvent { cartEnv 5100 with pathname := "/b_/c" }
        (trackEvent { cartEnv 5000 with pathname := "/c" } freshState "a_/b" {}).2
        "a" {}).2.requests.length = 1 :=
  ⟨rfl, rfl, by decide, by decide, by decide, by decide⟩

/-! ## C8 -/

set_option maxRecDepth 8000

theorem tenth_nearest :
    F64.tenth.value = some (7205759403792794 / 2 ^ 56)
    ∧ |(7205759403792794 / 2 ^ 56 : ℚ) - 1 / 10| < 1 / 2 ^ 57
    ∧ (2 : ℚ) ^ 52 ≤ 7205759403792794 ∧ (7205759403792794 : ℚ) < 2 ^ 53 := by
  refine ⟨?_, ?_, by norm_num, by norm_num⟩
  · simp only [F64.tenth, F64.value]
    norm_num
  · rw [abs_lt]
    constructor <;> norm_num

/-- Known binary64 results, as a check of the arithmetic: `0.1 + 0.2` is
`0.30000000000000004`, and `2^53 + 1` is not representable and rounds to `2^53`. -/
theorem binary64_known_values :
    F64.add F64.tenth (.fin false 7205759403792794 (-55)) = .fin false 5404319552844596 (-54)
    ∧ F64.ofNat (2 ^ 53 + 1) = .fin false (2 ^ 52) 1
    ∧ F64.ofNat (2 ^ 53 + 3) = .fin false (2 ^ 52 + 2) 1
    ∧ F64.mul (.fin false (2 ^ 53 - 1) 971) (F64.ofNat 2) = .inf false
    ∧ F64.mul (.fin true 1 (-1074)) F64.tenth = .fin true 0 0 := by
  decide

/-- C8, refuted as stated: for the cart `[{price: 299}, {price: 199}]` the subtotal
is 498 and the tax, `498 * 0.1` in binary64, is `7008726920095335 * 2^-47`
(49.800000000000004), which is not one tenth of 498. -/
theorem tax_not_exact_tenth_counterexample :
    (cartPageTotals twoItemCart).subtotal = F64.ofNat 498
    ∧ (F64.ofNat 498).value = some 498
    ∧ (cartPageTotals twoItemCart).tax = .fin false 7008726920095335 (-47)
    ∧ (cartPageTotals twoItemCart).tax.value = some (7008726920095335 / 2 ^ 47)
    ∧ (7008726920095335 / 2 ^ 47 : ℚ) ≠ 498 / 10 := by
  have hsub : (cartPageTotals twoItemCart).subtotal = F64.ofNat 498 := by decide
  have htax : (cartPageTotals twoItemCart).tax = .fin false 7008726920095335 (-47) := by
    decide
  refine ⟨hsub, ?_, htax, ?_, by norm_num⟩
  · have h : F64.ofNat 498 = .fin false 8760908650119168 (-44) := by decide
    rw [h]
    simp only [F64.value]
    norm_num
  · rw [htax]
    simp only [F64.value]
    norm_num

/-- C8 as amended: for every cart the Cart page and the Checkout page compute the
same three values; the subtotal is the binary64 sum of the prices taken in order
from 0, the tax is the binary64 product of the subtotal and the literal `0.1`
(one tenth of the subtotal up to rounding only), the total is the binary64 sum
of subtotal and tax.  For `[{price: 299}, {price: 199}]` the subtotal is 498, the
tax `7008726920095335 * 2^-47`, the total `4818499757565542 * 2^-43`, which
`toFixed(2)` shows as 498.00, 49.80 and 547.80; for the empty cart all three
are 0. -/
theorem cart_totals (cart : List PricedEntry) :
    checkoutPageTotals cart = cartPageTotals cart
    ∧ (cartPageTotals cart).subtotal
        = cart.foldl (fun sum item => F64.add sum item.price) F64.zero
    ∧ (cartPageTotals cart).tax = F64.mul (cartPageTotals cart).subtotal F64.tenth
    ∧ (cartPageTotals cart).total
        = F64.add (cartPageTotals cart).subtotal (cartPageTotals cart).tax
    ∧ (cartPageTotals twoItemCart).subtotal = F64.ofNat 498
    ∧ (cartPageTotals twoItemCart).tax = .fin false 7008726920095335 (-47)
    ∧ (cartPageTotals twoItemCart).total = .fin false 4818499757565542 (-43)
    ∧ (cartPageTotals twoItemCart).subtotal.toFixed2 = some "498.00"
    ∧ (cartPageTotals twoItemCart).tax.toFixed2 = some "49.80"
    ∧ (cartPageTotals twoItemCart).total.toFixed2 = some "547.80"
    ∧ (cartPageTotals []).subtotal = F64.zero
    ∧ (cartPageTotals []).tax = F64.zero
    ∧ (cartPageTotals []).total = F64.zero
    ∧ F64.zero.toFixed2 = some "0.00" :=
  ⟨rfl, rfl, rfl, rfl, by decide, by decide, by decide, by decide, by decide, by decide,
    by decide, by decide, by decide, by decide⟩

end Aixel
